import Mathlib

/-!
# Verification of the smart-shop sale-transaction engine

Shallow embedding of the billing core of the `smart-shop-backend` repository:
the pricing calculator `calculatePricing`, the invoice number generator
`generateInvoiceNumber`, and the sale orchestrator `recordSale` from
`src/controllers/billingController.js`, together with the persisted `Sale`
shape from the mongoose schema (`src/models/Sale.js`).

Conventions of the embedding:
* JavaScript numbers holding prices/amounts are modelled as `ℚ`;
  quantities and stock counts are integers in the source (mongoose
  `Number.isInteger` validators), modelled as `ℕ` resp. `ℤ`.
* MongoDB string sorting (`sort({invoiceNumber: -1})`) is byte-order
  comparison on UTF-8; for the ASCII strings involved this is code-point
  lexicographic order, modelled by `listStrLtB`.
* Falsy-`||` defaulting on strings is `jsOrS` (empty string = falsy).
* Fallible steps return `Except`; the HTTP response surface is the
  `RecordSaleOutcome` type carrying the status code the controller sends.
-/

namespace SmartShop

/-! ## Character and digit primitives -/

/-- The decimal digit characters, as produced by JavaScript
`Number.prototype.toString` for a natural number. -/
def digitChar : ℕ → Char
  | 0 => '0'
  | 1 => '1'
  | 2 => '2'
  | 3 => '3'
  | 4 => '4'
  | 5 => '5'
  | 6 => '6'
  | 7 => '7'
  | 8 => '8'
  | 9 => '9'
  | _ + 10 => '0'

/-- `c` is an ASCII decimal digit. -/
def isDigitCh (c : Char) : Bool := 48 ≤ c.toNat && c.toNat ≤ 57

/-- Numeric value of a digit character. -/
def digitVal (c : Char) : ℕ := c.toNat - 48

/-- Value of a most-significant-digit-first run of digit characters,
exactly how `parseInt` accumulates the digits it reads. -/
def valDigits (l : List Char) : ℕ := l.foldl (fun a c => 10 * a + digitVal c) 0

/-- Base-10 digits of `n`, least significant first, by repeated division;
fuel-based so the kernel can evaluate it. Agrees with `Nat.digits 10` for
sufficient fuel (`natDigitsRev_eq_digits`). -/
def natDigitsRev : ℕ → ℕ → List ℕ
  | 0, _ => []
  | fuel + 1, n => if n = 0 then [] else n % 10 :: natDigitsRev fuel (n / 10)

/-- Decimal rendering of a natural number, as JavaScript
`Number.prototype.toString` renders a non-negative integer. -/
def natToString (n : ℕ) : String :=
  if n = 0 then "0" else ⟨((natDigitsRev (n + 1) n).map digitChar).reverse⟩

/-! ## JavaScript string operations -/

/-- Byte-order (code-point) strict comparison of character lists: the order
MongoDB uses when sorting the ASCII `invoiceNumber` strings. -/
def listStrLtB : List Char → List Char → Bool
  | [], [] => false
  | [], _ :: _ => true
  | _ :: _, [] => false
  | a :: as, b :: bs =>
      if a.toNat < b.toNat then true
      else if b.toNat < a.toNat then false
      else listStrLtB as bs

/-- Strict string comparison in MongoDB sort order. -/
def strLtB (s t : String) : Bool := listStrLtB s.data t.data

/-- `findOne` over a sort-descending cursor: the maximum of the list in
MongoDB string order (`none` on an empty result set). -/
def maxStr? : List String → Option String
  | [] => none
  | s :: rest => some (rest.foldl (fun m t => if strLtB m t then t else m) s)

/-- The anchored-regex test `^pfx` used by the invoice query: `s` starts
with the literal string `p`. -/
def strStartsWith (s p : String) : Bool := p.data.isPrefixOf s.data

/-- `s.replace(p, '')` of the source, specialised to the inputs it
receives: every string it is applied to has been filtered by the anchored
regex `^p`, so the first occurrence of `p` is the leading one and removing
it is dropping `p.length` characters. -/
def dropPfx (p s : String) : String := ⟨s.data.drop p.data.length⟩

/-- JavaScript `parseInt(s)` restricted to the strings the invoice path
feeds it (no sign, no leading whitespace, no `0x` radix marker): reads the
leading run of decimal digits, `none` (`NaN`) when there is none. -/
def jsParseIntNat (s : String) : Option ℕ :=
  let ds := s.data.takeWhile fun c => isDigitCh c
  if ds.isEmpty then none else some (valDigits ds)

/-- `String.prototype.padStart(6, '0')`. -/
def padStart6 (s : String) : String :=
  ⟨List.replicate (6 - s.data.length) '0' ++ s.data⟩

/-- JavaScript `a || b` on strings: the empty string is falsy. -/
def jsOrS (a b : String) : String := if a = "" then b else a

/-- JavaScript `a || b` where `a` is a possibly-absent number: `undefined`
and `0` are falsy. -/
def jsOrQ (a : Option ℚ) (b : ℚ) : ℚ :=
  match a with
  | none => b
  | some x => if x = 0 then b else x

/-! ## Invoice number generator

Source: `generateInvoiceNumber` in `src/controllers/billingController.js`
(lines 1269–1287).  It reads the `Sale` collection; the embedding receives
the current year and the list of invoice numbers already stored. -/

/-- The year prefix `INV-<year>-`. -/
def invPfx (year : ℕ) : String := "INV-" ++ natToString year ++ "-"

/-- Suffix rendered for the next sequence number: `toString` then
`padStart(6, '0')` (`none` = the `NaN` produced when the parsed suffix was
not numeric; `"NaN".padStart(6,'0')` = `"000NaN"`). -/
def renderSeq : Option ℕ → String
  | some n => padStart6 (natToString n)
  | none => padStart6 "NaN"

/-- `generateInvoiceNumber`: find the invoice with the greatest
`invoiceNumber` (MongoDB string order) among those matching `^INV-<year>-`,
parse its numeric suffix, add one, zero-pad to 6 digits. -/
def generateInvoiceNumber (year : ℕ) (existing : List String) : String :=
  let p := invPfx year
  match maxStr? (existing.filter fun s => strStartsWith s p) with
  | none => p ++ renderSeq (some 1)
  | some lastSale => p ++ renderSeq ((jsParseIntNat (dropPfx p lastSale)).map (· + 1))

/-! ## Pricing calculator

Source: `calculatePricing` in `src/controllers/billingController.js`
(lines 1292–1323). -/

/-- A sale line item: the shape built by `recordSale` from an inventory
snapshot and fed to `calculatePricing`, and also the embedded `saleItemSchema`
shape persisted inside a `Sale`. -/
structure SaleItem where
  itemId : ℕ
  itemName : String
  brand : String
  quantity : ℕ
  unitPrice : ℚ
  totalPrice : ℚ
  mrp : ℚ
  sku : String
  deriving DecidableEq, Repr

/-- Result object of `calculatePricing`. -/
structure PricingResult where
  items : List SaleItem
  subtotal : ℚ
  mrpTotal : ℚ
  discount : ℚ
  extraDiscount : ℚ
  totalDiscount : ℚ
  finalAmount : ℚ
  savings : ℚ
  deriving DecidableEq, Repr

/-- `calculatePricing(items, discount, extraDiscount)`: recompute each
line's `totalPrice`, accumulate `subtotal` and `mrpTotal` left to right,
clamp the discounted amount at zero; `savings` is `mrpTotal - finalAmount`
with no clamping (the source has no `Math.max` on this line). -/
def calculatePricing (items : List SaleItem) (discount extraDiscount : ℚ) :
    PricingResult :=
  let calculatedItems :=
    items.map fun it => { it with totalPrice := it.unitPrice * (it.quantity : ℚ) }
  let subtotal := items.foldl (fun a it => a + it.unitPrice * (it.quantity : ℚ)) 0
  let mrpTotal := items.foldl (fun a it => a + it.mrp * (it.quantity : ℚ)) 0
  let totalDiscount := discount + extraDiscount
  let finalAmount := max 0 (subtotal - totalDiscount)
  let savings := mrpTotal - finalAmount
  { items := calculatedItems, subtotal := subtotal, mrpTotal := mrpTotal,
    discount := discount, extraDiscount := extraDiscount,
    totalDiscount := totalDiscount, finalAmount := finalAmount,
    savings := savings }

end SmartShop

namespace SmartShop

/-! ## Data model of the sale orchestrator

Source: `recordSale` in `src/controllers/billingController.js`
(lines 1329–1646), the mongoose `Sale`/`saleItemSchema` schema
(`src/models/Sale.js`) and the `InventoryItem` schema fields it reads.
MongoDB ObjectIds are opaque identifiers, modelled as `ℕ`. -/

/-- An inventory document, restricted to the fields the sale path reads
and writes.  `stockQty` carries mongoose validators `min: 0` and
`Number.isInteger`; it is an `ℤ` so that the (absence of) negative stock is
a provable property rather than one forced by the type. -/
structure InvItem where
  id : ℕ
  name : String
  brand : String
  sellPrice : ℚ
  mrpPrice : ℚ
  sku : String
  stockQty : ℤ
  deriving DecidableEq, Repr

/-- One entry of the request's `items` array.  Besides the `itemId` and
`quantity` the route validates, a caller may attach arbitrary extra fields
(a unit price, a total price, a name); they are part of the request but the
controller never reads them. -/
structure ReqItem where
  itemId : ℕ
  quantity : ℕ
  callerUnitPrice : ℚ
  callerTotalPrice : ℚ
  callerItemName : String
  deriving DecidableEq, Repr

/-- A customer record (`User.findById`), restricted to the fields the sale
path reads. -/
structure Customer where
  id : ℕ
  firstName : String
  lastName : String
  name : String
  phone : String
  email : String
  deriving DecidableEq, Repr

/-- The authenticated caller (`req.user`). -/
structure UserCtx where
  id : ℕ
  storeId : Option ℕ
  role : String
  deriving DecidableEq, Repr

/-- The body of `POST /billing/record-sale` after the express-validator
middleware has accepted it.  Absent optional fields are `none` / `""`
(both falsy in the source's `||` defaulting). -/
structure SaleRequest where
  items : List ReqItem
  paymentMode : String
  customerId : Option ℕ
  customerName : String
  customerPhone : String
  customerEmail : String
  discount : ℚ
  extraDiscount : ℚ
  paymentReference : String
  storeId : Option ℕ
  gst : Option ℚ
  cgst : Option ℚ
  gstRate : Option ℚ
  cgstRate : Option ℚ
  notes : String
  sendWhatsApp : Bool
  sendEmail : Bool
  deriving DecidableEq, Repr

/-- A persisted `Sale` document: exactly the paths of `saleSchema`.  The
controller also passes `savings`, `finalAmount` and `totalDiscount` to the
`Sale` constructor, but the schema declares none of them, and mongoose in
its default strict mode drops unknown paths — so they are not persisted and
do not appear here. -/
structure Sale where
  invoiceNumber : String
  customerId : Option ℕ
  customerName : String
  customerPhone : String
  customerEmail : String
  items : List SaleItem
  paymentMode : String
  paymentReference : String
  subtotal : ℚ
  mrpTotal : ℚ
  discount : ℚ
  extraDiscount : ℚ
  gst : ℚ
  cgst : ℚ
  totalTax : ℚ
  totalAmount : ℚ
  storeId : ℕ
  handledBy : ℕ
  status : String
  notes : String
  deriving DecidableEq, Repr

/-- The backing store: inventory documents, customer (`User`) documents,
the `Store` collection (only ids are read), and committed sales. -/
structure DB where
  inventory : List InvItem
  customers : List Customer
  stores : List ℕ
  sales : List Sale
  deriving DecidableEq, Repr

/-- Outcome of the external notification dispatch
(`InvoiceNotificationService.sendInvoiceNotifications`): the promise either
resolves with a per-channel summary or rejects. -/
structure NotifSummary where
  totalSent : ℕ
  totalFailed : ℕ
  deriving DecidableEq, Repr

/-- Behaviour of the notification collaborator during one request. -/
inductive NotifBehavior where
  | throws
  | returns (summary : NotifSummary)
  deriving DecidableEq, Repr

/-- The error bodies `recordSale` can send. -/
inductive RecordSaleError where
  /-- "Store ID is required…" (400, before the transaction). -/
  | storeRequired
  /-- "One or more items not found in inventory" (400). -/
  | itemsNotFound
  /-- "Item not found: `<id>`" (the per-item re-check inside the loop). -/
  | itemNotFoundInner (itemId : ℕ)
  /-- "Insufficient stock for `<name>`. Available: `<a>`, Requested: `<q>`". -/
  | insufficientStock (name : String) (available : ℤ) (requested : ℕ)
  /-- "Customer not found" (400). -/
  | customerNotFound
  /-- The outer `catch`: "Failed to record sale" (500). -/
  | internalError
  deriving DecidableEq, Repr

/-- The `data` object of the 201 response.  `savingsResp` is
`sale.savings`: the schema has no `savings` path, so the document exposes
`undefined` there and the field is absent from the JSON — always `none`.
`notifications` is `none` when the response carries no notification block
(not requested, or the dispatch threw before `notificationResults` was
assigned). -/
structure SuccessData where
  sale : Sale
  invoiceNumber : String
  totalAmount : ℚ
  itemsCount : ℕ
  savingsResp : Option ℚ
  notifications : Option NotifSummary
  deriving DecidableEq, Repr

/-- What `recordSale` sends: an error status with its body, or 201 with the
success payload. -/
inductive RecordSaleOutcome where
  | failure (status : ℕ) (e : RecordSaleError)
  | success (d : SuccessData)
  deriving DecidableEq, Repr

/-- HTTP status of an outcome (`201` on the success path). -/
def RecordSaleOutcome.statusCode : RecordSaleOutcome → ℕ
  | .failure s _ => s
  | .success _ => 201

/-! ## The `recordSale` pipeline, step by step -/

/-- Store resolution: `storeId || req.user.storeId`, else
`Store.findOne({})` when the caller's role is `admin`/`manager`/`staff`. -/
def resolveStore (user : UserCtx) (req : SaleRequest) (db : DB) : Option ℕ :=
  match req.storeId with
  | some s => some s
  | none =>
    match user.storeId with
    | some s => some s
    | none =>
      if user.role = "admin" ∨ user.role = "manager" ∨ user.role = "staff" then
        db.stores.head?
      else none

/-- `InventoryItem.find({_id: {$in: items.map(i => i.itemId)}})`: the
distinct inventory documents whose id occurs among the requested ids. -/
def fetchSaleInventory (inv : List InvItem) (items : List ReqItem) : List InvItem :=
  inv.filter fun it => items.any fun r => r.itemId = it.id

/-- The `SaleItem` snapshot pushed for one validated request entry: every
field except the quantity comes from the inventory document. -/
def mkSaleItem (it : InvItem) (q : ℕ) : SaleItem :=
  { itemId := it.id, itemName := it.name, brand := it.brand, quantity := q,
    unitPrice := it.sellPrice, totalPrice := it.sellPrice * (q : ℚ),
    mrp := it.mrpPrice, sku := jsOrS it.sku "" }

/-- The per-item loop: find each requested item among the fetched
documents, abort on the first missing item or the first insufficient stock,
otherwise accumulate the `SaleItem` snapshots and the stock decrements
(`$inc: {stockQty: -quantity}`) in request order. -/
def buildSaleItems (fetched : List InvItem) :
    List ReqItem → Except RecordSaleError (List SaleItem × List (ℕ × ℕ))
  | [] => .ok ([], [])
  | r :: rest =>
    match fetched.find? fun it => it.id = r.itemId with
    | none => .error (.itemNotFoundInner r.itemId)
    | some it =>
      if it.stockQty < (r.quantity : ℤ) then
        .error (.insufficientStock it.name it.stockQty r.quantity)
      else
        match buildSaleItems fetched rest with
        | .error e => .error e
        | .ok (sis, ups) => .ok (mkSaleItem it r.quantity :: sis, (it.id, r.quantity) :: ups)

/-- `updateOne` with filter `{_id: iid}` and `$inc: {stockQty: -q}`:
decrement the first (in a well-formed collection: the only) document with
that id. -/
def updateFirst : List InvItem → ℕ → ℕ → List InvItem
  | [], _, _ => []
  | it :: rest, iid, q =>
    if it.id = iid then { it with stockQty := it.stockQty - (q : ℤ) } :: rest
    else it :: updateFirst rest iid q

/-- `InventoryItem.bulkWrite(stockUpdates)`: apply the decrements in
order. -/
def applyStockUpdates (inv : List InvItem) (ups : List (ℕ × ℕ)) : List InvItem :=
  ups.foldl (fun acc u => updateFirst acc u.1 u.2) inv

/-- Customer resolution: walk-in defaults, or `User.findById` with the
`||`-chained snapshot fields from the source. -/
def resolveCustomer (req : SaleRequest) (db : DB) :
    Except RecordSaleError (Option ℕ × String × String × String) :=
  match req.customerId with
  | none =>
    .ok (none, jsOrS req.customerName "Walk-in Customer",
         jsOrS req.customerPhone "", jsOrS req.customerEmail "")
  | some cid =>
    match db.customers.find? fun c => c.id = cid with
    | none => .error .customerNotFound
    | some c =>
      .ok (some c.id,
           jsOrS (jsOrS (jsOrS req.customerName (c.firstName ++ " " ++ c.lastName)) c.name)
             "Customer",
           jsOrS req.customerPhone (jsOrS c.phone ""),
           jsOrS req.customerEmail (jsOrS c.email ""))

/-- The `new Sale({...})` document as the schema keeps it: `savings`,
`finalAmount` and `totalDiscount` are passed by the controller but are not
schema paths, so strict-mode mongoose drops them; `totalTax` is the literal
`0` of the source; `status` is the schema default `'completed'`. -/
def mkSaleRecord (user : UserCtx) (req : SaleRequest) (sid : ℕ)
    (pricing : PricingResult) (cid : Option ℕ)
    (cname cphone cemail invoiceNumber : String) : Sale :=
  { invoiceNumber := invoiceNumber, customerId := cid,
    customerName := cname, customerPhone := cphone,
    customerEmail := cemail, items := pricing.items,
    paymentMode := req.paymentMode,
    paymentReference := req.paymentReference,
    subtotal := pricing.subtotal, mrpTotal := pricing.mrpTotal,
    discount := pricing.discount,
    extraDiscount := pricing.extraDiscount,
    gst := jsOrQ req.gst (jsOrQ req.gstRate 0),
    cgst := jsOrQ req.cgst (jsOrQ req.cgstRate 0),
    totalTax := 0, totalAmount := pricing.finalAmount,
    storeId := sid, handledBy := user.id, status := "completed",
    notes := jsOrS req.notes "" }

/-- The transactional part of `recordSale`: everything between
`session.startTransaction()` and `session.commitTransaction()`, plus the
store resolution that precedes it.  On success it yields the committed
sale, the new database state and the resolved customer email (used by the
notification step).

`commitIndex` is the set of invoice numbers the unique index
`saleSchema.index({invoiceNumber: 1}, {unique: true})` holds when the
transaction commits: for a request running alone it is exactly the invoice
numbers of `db.sales`; a concurrent writer that committed inside the window
makes it a superset.  A clash makes `sale.save` throw a duplicate-key
error, which the inner `catch` re-throws after aborting and the outer
`catch` turns into a generic 500 — there is no retry loop in the source. -/
def recordSaleCore (year : ℕ) (user : UserCtx) (req : SaleRequest) (db : DB)
    (commitIndex : List String) :
    Except (ℕ × RecordSaleError) (Sale × DB × String) :=
  match resolveStore user req db with
  | none => .error (400, .storeRequired)
  | some sid =>
    let fetched := fetchSaleInventory db.inventory req.items
    if fetched.length ≠ req.items.length then .error (400, .itemsNotFound)
    else
      match buildSaleItems fetched req.items with
      | .error e => .error (400, e)
      | .ok (saleItems, stockUpdates) =>
        let pricing := calculatePricing saleItems req.discount req.extraDiscount
        match resolveCustomer req db with
        | .error e => .error (400, e)
        | .ok (cid, cname, cphone, cemail) =>
          let invoiceNumber :=
            generateInvoiceNumber year (db.sales.map fun s => s.invoiceNumber)
          let sale : Sale :=
            mkSaleRecord user req sid pricing cid cname cphone cemail invoiceNumber
          if sale.invoiceNumber ∈ commitIndex then .error (500, .internalError)
          else
            .ok (sale,
                 { db with inventory := applyStockUpdates db.inventory stockUpdates,
                           sales := db.sales ++ [sale] },
                 cemail)

/-- `recordSale`: the transaction, then the best-effort notification
dispatch and the 201 response.  A `NotifBehavior.throws` dispatch is caught
by the inner try/catch, so `notificationResults` keeps its initial `null`
and the response is built without a notification block. -/
def recordSale (year : ℕ) (user : UserCtx) (req : SaleRequest) (db : DB)
    (commitIndex : List String) (notif : NotifBehavior) :
    RecordSaleOutcome × DB :=
  match recordSaleCore year user req db commitIndex with
  | .error (status, e) => (.failure status e, db)
  | .ok (sale, db', cemail) =>
    let notificationResults : Option NotifSummary :=
      if req.sendEmail && cemail ≠ "" then
        match notif with
        | .throws => none
        | .returns summary => some summary
      else none
    (.success { sale := sale, invoiceNumber := sale.invoiceNumber,
                totalAmount := sale.totalAmount,
                itemsCount := sale.items.length,
                savingsResp := none,
                notifications := notificationResults }, db')

/-- Stock of the inventory document with id `iid` (`none` when absent). -/
def stockOf (inv : List InvItem) (iid : ℕ) : Option ℤ :=
  (inv.find? fun it => it.id = iid).map fun it => it.stockQty

end SmartShop

namespace SmartShop

/-! ## Pricing lemmas -/

/-- Left-to-right accumulation equals the sum of the mapped list. -/
theorem foldl_add_map_sum (f : SaleItem → ℚ) :
    ∀ (l : List SaleItem) (a : ℚ), l.foldl (fun x it => x + f it) a = a + (l.map f).sum
  | [], a => by simp
  | it :: rest, a => by
    rw [List.foldl_cons, foldl_add_map_sum f rest (a + f it)]
    simp [List.map_cons, List.sum_cons]
    ring

theorem calculatePricing_subtotal (items : List SaleItem) (d e : ℚ) :
    (calculatePricing items d e).subtotal
      = (items.map fun it => it.unitPrice * (it.quantity : ℚ)).sum := by
  simp [calculatePricing, foldl_add_map_sum]

theorem calculatePricing_mrpTotal (items : List SaleItem) (d e : ℚ) :
    (calculatePricing items d e).mrpTotal
      = (items.map fun it => it.mrp * (it.quantity : ℚ)).sum := by
  simp [calculatePricing, foldl_add_map_sum]

theorem calculatePricing_finalAmount (items : List SaleItem) (d e : ℚ) :
    (calculatePricing items d e).finalAmount
      = max 0 ((calculatePricing items d e).subtotal - (d + e)) := by
  simp [calculatePricing]

theorem calculatePricing_items_eq (items : List SaleItem) (d e : ℚ) :
    (calculatePricing items d e).items
      = items.map fun it => { it with totalPrice := it.unitPrice * (it.quantity : ℚ) } := by
  simp [calculatePricing]

theorem calculatePricing_savings_eq (items : List SaleItem) (d e : ℚ) :
    (calculatePricing items d e).savings
      = (calculatePricing items d e).mrpTotal - (calculatePricing items d e).finalAmount := by
  simp [calculatePricing]

theorem calculatePricing_discount_fields (items : List SaleItem) (d e : ℚ) :
    (calculatePricing items d e).discount = d
      ∧ (calculatePricing items d e).extraDiscount = e
      ∧ (calculatePricing items d e).totalDiscount = d + e := by
  refine ⟨rfl, rfl, rfl⟩

/-- C3 — `calculatePricing` recomputes every line's `totalPrice` as
`unitPrice × quantity` (overriding the caller-supplied value), sums the
recomputed line totals into `subtotal`, sums `mrp × quantity` into
`mrpTotal`, and clamps `finalAmount = max(0, subtotal − (discount +
extraDiscount))` at zero.  The embedding is a pure function, so determinism
holds by construction. -/
theorem C3_calculatePricing_correct (items : List SaleItem)
    (discount extraDiscount : ℚ)
    (hd : 0 ≤ discount) (he : 0 ≤ extraDiscount)
    (hit : ∀ it ∈ items, 0 ≤ it.unitPrice ∧ 0 ≤ it.mrp ∧ 1 ≤ it.quantity) :
    (calculatePricing items discount extraDiscount).items
        = (items.map fun it => { it with totalPrice := it.unitPrice * (it.quantity : ℚ) })
      ∧ (∀ it ∈ (calculatePricing items discount extraDiscount).items,
          it.totalPrice = it.unitPrice * (it.quantity : ℚ))
      ∧ (calculatePricing items discount extraDiscount).subtotal
          = (items.map fun it => it.unitPrice * (it.quantity : ℚ)).sum
      ∧ (calculatePricing items discount extraDiscount).mrpTotal
          = (items.map fun it => it.mrp * (it.quantity : ℚ)).sum
      ∧ (calculatePricing items discount extraDiscount).finalAmount
          = max 0 ((items.map fun it => it.unitPrice * (it.quantity : ℚ)).sum
              - (discount + extraDiscount))
      ∧ 0 ≤ (calculatePricing items discount extraDiscount).finalAmount := by
  refine ⟨calculatePricing_items_eq items discount extraDiscount, ?_, 
    calculatePricing_subtotal items discount extraDiscount,
    calculatePricing_mrpTotal items discount extraDiscount, ?_, ?_⟩
  · intro it hmem
    rw [calculatePricing_items_eq] at hmem
    rcases List.mem_map.mp hmem with ⟨it0, _, rfl⟩
    rfl
  · rw [calculatePricing_finalAmount, calculatePricing_subtotal]
  · rw [calculatePricing_finalAmount]
    exact le_max_left 0 _

/-- Witness for C3 at the spec's worked example: one line with unit price
100, MRP 120, quantity 3, discount 10. -/
theorem C3_calculatePricing_correct_witness :
    (calculatePricing
        [{ itemId := 1, itemName := "A", brand := "", quantity := 3,
           unitPrice := 100, totalPrice := 0, mrp := 120, sku := "" }] 10 0).subtotal
      = 300 := by
  have h := C3_calculatePricing_correct
      [{ itemId := 1, itemName := "A", brand := "", quantity := 3,
         unitPrice := 100, totalPrice := 0, mrp := 120, sku := "" }] 10 0
      (by norm_num) (by norm_num)
      (by intro it hmem; simp at hmem; subst hmem; refine ⟨by norm_num, by norm_num, by norm_num⟩)
  rw [h.2.2.1]
  norm_num

end SmartShop

namespace SmartShop

/-- C4 counterexample — an item priced above its MRP (unit price 100, MRP
50, quantity 1, no discount): `mrpTotal = 50`, `finalAmount = 100`, and the
source computes `savings = mrpTotal - finalAmount = -50` with no clamping,
so `savings` is negative and differs from `max(0, mrpTotal − finalAmount) =
0`. -/
theorem C4_savings_clamp_counterexample :
    (calculatePricing
        [{ itemId := 1, itemName := "A", brand := "", quantity := 1,
           unitPrice := 100, totalPrice := 0, mrp := 50, sku := "" }] 0 0).savings = -50
      ∧ ¬ (0 : ℚ) ≤ (calculatePricing
        [{ itemId := 1, itemName := "A", brand := "", quantity := 1,
           unitPrice := 100, totalPrice := 0, mrp := 50, sku := "" }] 0 0).savings
      ∧ (calculatePricing
        [{ itemId := 1, itemName := "A", brand := "", quantity := 1,
           unitPrice := 100, totalPrice := 0, mrp := 50, sku := "" }] 0 0).savings
        ≠ max 0 ((calculatePricing
        [{ itemId := 1, itemName := "A", brand := "", quantity := 1,
           unitPrice := 100, totalPrice := 0, mrp := 50, sku := "" }] 0 0).mrpTotal
          - (calculatePricing
        [{ itemId := 1, itemName := "A", brand := "", quantity := 1,
           unitPrice := 100, totalPrice := 0, mrp := 50, sku := "" }] 0 0).finalAmount) := by
  refine ⟨?_, ?_, ?_⟩ <;> simp [calculatePricing] <;> norm_num

/-- C4 (amended) — the pricing calculation returns
`savings = mrpTotal − finalAmount` **unclamped**: it is negative exactly
when items are priced above their MRP strongly enough that
`mrpTotal < finalAmount`; no `max(0, ·)` is applied to it anywhere in the
sale-recording path (and the persisted `Sale` schema drops the field
entirely, cf. C6). -/
theorem C4_savings_unclamped (items : List SaleItem) (discount extraDiscount : ℚ) :
    (calculatePricing items discount extraDiscount).savings
      = (calculatePricing items discount extraDiscount).mrpTotal
        - (calculatePricing items discount extraDiscount).finalAmount
      ∧ ((calculatePricing items discount extraDiscount).savings < 0
          ↔ (calculatePricing items discount extraDiscount).mrpTotal
              < (calculatePricing items discount extraDiscount).finalAmount) := by
  refine ⟨calculatePricing_savings_eq items discount extraDiscount, ?_⟩
  rw [calculatePricing_savings_eq]
  constructor
  · intro h; linarith
  · intro h; linarith

end SmartShop

namespace SmartShop

/-! ## Response projections used to state concrete facts -/

/-- The persisted sale inside a 201 response, if any. -/
def saleOf : RecordSaleOutcome → Option Sale
  | .success d => some d.sale
  | .failure _ _ => none

/-- The notification block of a 201 response (`some none` = 201 sent with
the block absent, `none` = not a 201). -/
def notifFieldOf : RecordSaleOutcome → Option (Option NotifSummary)
  | .success d => some d.notifications
  | .failure _ _ => none

/-- The tax amount the schema method `saleSchema.methods.calculateAmounts`
would compute from the captured rates:
`(subtotal − discount − extraDiscount) · gst/100 + (… ) · cgst/100`.
`recordSale` never calls this method. -/
def saleTaxFromRates (s : Sale) : ℚ :=
  (s.subtotal - s.discount - s.extraDiscount) * s.gst / 100
    + (s.subtotal - s.discount - s.extraDiscount) * s.cgst / 100

/-! ## Inversion lemmas for the pipeline -/

/-- A 201 outcome comes from a committed core transaction, and the success
payload is built from the committed sale. -/
theorem recordSale_success_inv {year : ℕ} {user : UserCtx} {req : SaleRequest}
    {db : DB} {ci : List String} {notif : NotifBehavior} {d : SuccessData}
    {db' : DB}
    (h : recordSale year user req db ci notif = (.success d, db')) :
    ∃ em, recordSaleCore year user req db ci = .ok (d.sale, db', em) := by
  unfold recordSale at h
  cases hc : recordSaleCore year user req db ci with
  | error p =>
    rw [hc] at h
    simp at h
  | ok t =>
    obtain ⟨sale, db2, em⟩ := t
    rw [hc] at h
    simp only [Prod.mk.injEq, RecordSaleOutcome.success.injEq] at h
    obtain ⟨hd, hdb⟩ := h
    subst hdb
    subst hd
    exact ⟨em, rfl⟩

/-- Full inversion of a committed core transaction into its pipeline
steps. -/
theorem recordSaleCore_ok_inv {year : ℕ} {user : UserCtx} {req : SaleRequest}
    {db : DB} {ci : List String} {sale : Sale} {db' : DB} {em : String}
    (h : recordSaleCore year user req db ci = .ok (sale, db', em)) :
    ∃ sid sis ups cid cname cphone cemail,
      resolveStore user req db = some sid
      ∧ (fetchSaleInventory db.inventory req.items).length = req.items.length
      ∧ buildSaleItems (fetchSaleInventory db.inventory req.items) req.items
          = .ok (sis, ups)
      ∧ resolveCustomer req db = .ok (cid, cname, cphone, cemail)
      ∧ sale = mkSaleRecord user req sid
          (calculatePricing sis req.discount req.extraDiscount) cid cname cphone cemail
          (generateInvoiceNumber year (db.sales.map fun s => s.invoiceNumber))
      ∧ sale.invoiceNumber ∉ ci
      ∧ db' = { db with inventory := applyStockUpdates db.inventory ups,
                        sales := db.sales ++ [sale] }
      ∧ em = cemail := by
  unfold recordSaleCore at h
  cases hst : resolveStore user req db with
  | none => rw [hst] at h; simp at h
  | some sid =>
    rw [hst] at h
    simp only at h
    by_cases hlen :
        (fetchSaleInventory db.inventory req.items).length ≠ req.items.length
    · rw [if_pos hlen] at h; simp at h
    · rw [if_neg hlen] at h
      push_neg at hlen
      cases hb : buildSaleItems (fetchSaleInventory db.inventory req.items) req.items with
      | error e => rw [hb] at h; simp at h
      | ok p =>
        obtain ⟨sis, ups⟩ := p
        rw [hb] at h
        simp only at h
        cases hcust : resolveCustomer req db with
        | error e => rw [hcust] at h; simp at h
        | ok q =>
          obtain ⟨cid, cname, cphone, cemail⟩ := q
          rw [hcust] at h
          simp only at h
          by_cases hmem :
              (mkSaleRecord user req sid
                (calculatePricing sis req.discount req.extraDiscount) cid cname cphone
                cemail
                (generateInvoiceNumber year
                  (db.sales.map fun s => s.invoiceNumber))).invoiceNumber
                ∈ ci
          · rw [if_pos hmem] at h; simp at h
          · rw [if_neg hmem] at h
            simp only [Except.ok.injEq, Prod.mk.injEq] at h
            obtain ⟨hs, hdb, hem⟩ := h
            refine ⟨sid, sis, ups, cid, cname, cphone, cemail, rfl, hlen, rfl, rfl,
              ?_, ?_, ?_, ?_⟩
            · exact hs.symm
            · rw [← hs]; exact hmem
            · rw [← hdb, hs]
            · exact hem.symm

end SmartShop

namespace SmartShop

/-! ## Error propagation and counting lemmas -/

/-- A failing core transaction is surfaced unchanged by `recordSale`, with
the database untouched (the abort). -/
theorem recordSale_error_of_core {year : ℕ} {user : UserCtx} {req : SaleRequest}
    {db : DB} {ci : List String} {notif : NotifBehavior} {status : ℕ}
    {e : RecordSaleError}
    (h : recordSaleCore year user req db ci = .error (status, e)) :
    recordSale year user req db ci notif = (.failure status e, db) := by
  unfold recordSale
  rw [h]

/-- The ids of the fetched inventory documents are distinct whenever the
collection's ids are (`$in` returns each matching document once). -/
theorem fetched_ids_nodup (inv : List InvItem) (items : List ReqItem)
    (hinv : (inv.map fun it => it.id).Nodup) :
    ((fetchSaleInventory inv items).map fun it => it.id).Nodup :=
  List.Nodup.sublist (List.Sublist.map _ (List.filter_sublist inv)) hinv

/-- Every fetched document's id occurs among the requested ids. -/
theorem fetched_ids_subset (inv : List InvItem) (items : List ReqItem) :
    ∀ x ∈ (fetchSaleInventory inv items).map fun it => it.id,
      x ∈ items.map fun r => r.itemId := by
  intro x hx
  rcases List.mem_map.mp hx with ⟨it, hit, rfl⟩
  rcases List.mem_filter.mp hit with ⟨_, hpred⟩
  rcases List.any_eq_true.mp hpred with ⟨r, hr, hr2⟩
  exact List.mem_map.mpr ⟨r, hr, of_decide_eq_true hr2⟩

/-- The fetched set is at most as large as the set of distinct requested
ids. -/
theorem fetch_length_le (inv : List InvItem) (items : List ReqItem)
    (hinv : (inv.map fun it => it.id).Nodup) :
    (fetchSaleInventory inv items).length
      ≤ ((items.map fun r => r.itemId).dedup).length := by
  have h1 : ((fetchSaleInventory inv items).map fun it => it.id).toFinset
      ⊆ ((items.map fun r => r.itemId)).toFinset := by
    intro x hx
    rw [List.mem_toFinset] at hx ⊢
    exact fetched_ids_subset inv items x hx
  have h2 := Finset.card_le_card h1
  rw [List.card_toFinset, List.card_toFinset,
    List.dedup_eq_self.mpr (fetched_ids_nodup inv items hinv)] at h2
  simpa using h2

/-- A duplicated `itemId` in the request makes the fetched set strictly
smaller than the request. -/
theorem fetch_length_lt_of_dup (inv : List InvItem) (items : List ReqItem)
    (hinv : (inv.map fun it => it.id).Nodup)
    (hdup : ¬ ((items.map fun r => r.itemId)).Nodup) :
    (fetchSaleInventory inv items).length < items.length := by
  have h1 := fetch_length_le inv items hinv
  have hsub := List.dedup_sublist (items.map fun r => r.itemId)
  have hlt : ((items.map fun r => r.itemId).dedup).length
      < (items.map fun r => r.itemId).length := by
    rcases eq_or_lt_of_le hsub.length_le with heq | hlt
    · exact absurd (List.dedup_eq_self.mp (hsub.eq_of_length heq)) hdup
    · exact hlt
  calc (fetchSaleInventory inv items).length
      ≤ ((items.map fun r => r.itemId).dedup).length := h1
    _ < (items.map fun r => r.itemId).length := hlt
    _ = items.length := List.length_map _ _

/-- When the count check passes over a well-formed collection, the request
ids are distinct. -/
theorem req_ids_nodup_of_len_eq (inv : List InvItem) (items : List ReqItem)
    (hinv : (inv.map fun it => it.id).Nodup)
    (hlen : (fetchSaleInventory inv items).length = items.length) :
    ((items.map fun r => r.itemId)).Nodup := by
  by_contra hdup
  exact absurd hlen (Nat.ne_of_lt (fetch_length_lt_of_dup inv items hinv hdup))

/-- When the count check passes over a well-formed collection, every
requested item resolves to a fetched document with the requested id. -/
theorem all_found_of_len_eq (inv : List InvItem) (items : List ReqItem)
    (hinv : (inv.map fun it => it.id).Nodup)
    (hlen : (fetchSaleInventory inv items).length = items.length) :
    ∀ r ∈ items, ∃ it,
      (fetchSaleInventory inv items).find? (fun x => x.id = r.itemId) = some it
      ∧ it ∈ inv ∧ it.id = r.itemId := by
  have hnodupF := fetched_ids_nodup inv items hinv
  have h1 : ((fetchSaleInventory inv items).map fun it => it.id).toFinset
      ⊆ ((items.map fun r => r.itemId)).toFinset := by
    intro x hx
    rw [List.mem_toFinset] at hx ⊢
    exact fetched_ids_subset inv items x hx
  have hcard : ((items.map fun r => r.itemId)).toFinset.card
      ≤ ((fetchSaleInventory inv items).map fun it => it.id).toFinset.card := by
    rw [List.card_toFinset, List.card_toFinset,
      List.dedup_eq_self.mpr hnodupF, List.length_map, hlen]
    calc ((items.map fun r => r.itemId)).dedup.length
        ≤ (items.map fun r => r.itemId).length := (List.dedup_sublist _).length_le
      _ = items.length := List.length_map _ _
  have heq := Finset.eq_of_subset_of_card_le h1 hcard
  intro r hr
  have hmemR : r.itemId ∈ ((items.map fun r => r.itemId)).toFinset :=
    List.mem_toFinset.mpr (List.mem_map.mpr ⟨r, hr, rfl⟩)
  rw [← heq] at hmemR
  rcases List.mem_map.mp (List.mem_toFinset.mp hmemR) with ⟨it, hitF, hitid⟩
  have hsome : ((fetchSaleInventory inv items).find? fun x => x.id = r.itemId).isSome := by
    rw [List.find?_isSome]
    exact ⟨it, hitF, by simp [hitid]⟩
  rcases Option.isSome_iff_exists.mp hsome with ⟨it', hit'⟩
  refine ⟨it', hit', ?_, ?_⟩
  · exact (List.mem_filter.mp (List.mem_of_find?_eq_some hit')).1
  · simpa using List.find?_some hit'

end SmartShop

namespace SmartShop

/-! ## Lemmas on the per-item loop -/

/-- With a resolved store and a passing count check, a failing per-item
loop aborts the transaction with its error and status 400. -/
theorem recordSaleCore_build_error {year : ℕ} {user : UserCtx}
    {req : SaleRequest} {db : DB} {ci : List String} {sid : ℕ}
    {e : RecordSaleError}
    (hstore : resolveStore user req db = some sid)
    (hlen : (fetchSaleInventory db.inventory req.items).length = req.items.length)
    (hbuild : buildSaleItems (fetchSaleInventory db.inventory req.items) req.items
        = .error e) :
    recordSaleCore year user req db ci = .error (400, e) := by
  unfold recordSaleCore
  rw [hstore]
  simp only
  rw [if_neg (by simp [hlen]), hbuild]

/-- The loop aborts with the `InsufficientStock` message of the first
requested item whose fetched document is short on stock, provided every
requested item resolves. -/
theorem buildSaleItems_error_first_insufficient (fetched : List InvItem) :
    ∀ (items : List ReqItem),
      (∀ r ∈ items, ∃ it, fetched.find? (fun x => x.id = r.itemId) = some it) →
      (∃ r ∈ items, ∃ it, fetched.find? (fun x => x.id = r.itemId) = some it
          ∧ it.stockQty < (r.quantity : ℤ)) →
      ∃ r ∈ items, ∃ it, fetched.find? (fun x => x.id = r.itemId) = some it
          ∧ it.stockQty < (r.quantity : ℤ)
          ∧ buildSaleItems fetched items
              = .error (.insufficientStock it.name it.stockQty r.quantity)
  | [] => by
    intro _ h
    rcases h with ⟨r, hr, _⟩
    exact absurd hr (List.not_mem_nil r)
  | r :: rest => by
    intro hall hex
    rcases hall r (List.mem_cons_self r rest) with ⟨it, hit⟩
    by_cases hstock : it.stockQty < (r.quantity : ℤ)
    · refine ⟨r, List.mem_cons_self r rest, it, hit, hstock, ?_⟩
      simp [buildSaleItems, hit, hstock]
    · have hexrest : ∃ r' ∈ rest, ∃ it',
          fetched.find? (fun x => x.id = r'.itemId) = some it'
            ∧ it'.stockQty < (r'.quantity : ℤ) := by
        rcases hex with ⟨r', hr', it', hit', hstock'⟩
        rcases List.mem_cons.mp hr' with rfl | hmem
        · rw [hit] at hit'
          injection hit' with h
          subst h
          exact absurd hstock' hstock
        · exact ⟨r', hmem, it', hit', hstock'⟩
      have hallrest : ∀ r' ∈ rest, ∃ it',
          fetched.find? (fun x => x.id = r'.itemId) = some it' :=
        fun r' h => hall r' (List.mem_cons_of_mem r h)
      rcases buildSaleItems_error_first_insufficient fetched rest hallrest hexrest with
        ⟨r', hr', it', hit', hstock', hbuild⟩
      refine ⟨r', List.mem_cons_of_mem r hr', it', hit', hstock', ?_⟩
      simp [buildSaleItems, hit, hstock, hbuild]

/-- A completed loop decrements exactly the requested ids by the requested
quantities, and every requested item had sufficient stock. -/
theorem buildSaleItems_ok_inv (fetched : List InvItem) :
    ∀ (items : List ReqItem) (sis : List SaleItem) (ups : List (ℕ × ℕ)),
      buildSaleItems fetched items = .ok (sis, ups) →
      ups = items.map (fun r => (r.itemId, r.quantity))
      ∧ ∀ r ∈ items, ∃ it, fetched.find? (fun x => x.id = r.itemId) = some it
          ∧ it.id = r.itemId ∧ (r.quantity : ℤ) ≤ it.stockQty
  | [] => by
    intro sis ups h
    simp only [buildSaleItems, Except.ok.injEq, Prod.mk.injEq] at h
    exact ⟨h.2.symm, by simp⟩
  | r :: rest => by
    intro sis ups h
    cases hf : fetched.find? (fun x => x.id = r.itemId) with
    | none => simp [buildSaleItems, hf] at h
    | some it =>
      by_cases hstock : it.stockQty < (r.quantity : ℤ)
      · simp [buildSaleItems, hf, hstock] at h
      · cases hrec : buildSaleItems fetched rest with
        | error e => simp [buildSaleItems, hf, hstock, hrec] at h
        | ok p =>
          obtain ⟨sis', ups'⟩ := p
          have hid : it.id = r.itemId := by simpa using List.find?_some hf
          rcases buildSaleItems_ok_inv fetched rest sis' ups' hrec with ⟨hups', hall'⟩
          have hEq : buildSaleItems fetched (r :: rest)
              = .ok (mkSaleItem it r.quantity :: sis', (it.id, r.quantity) :: ups') := by
            simp [buildSaleItems, hf, hstock, hrec]
          rw [h] at hEq
          simp only [Except.ok.injEq, Prod.mk.injEq] at hEq
          obtain ⟨-, hups⟩ := hEq
          constructor
          · rw [hups, hups', List.map_cons, hid]
          · intro r' hr'
            rcases List.mem_cons.mp hr' with rfl | hmem
            · exact ⟨it, hf, hid, not_lt.mp hstock⟩
            · exact hall' r' hmem

/-! ## Lemmas on the stock decrements -/

theorem applyStockUpdates_cons (inv : List InvItem) (u : ℕ × ℕ)
    (rest : List (ℕ × ℕ)) :
    applyStockUpdates inv (u :: rest)
      = applyStockUpdates (updateFirst inv u.1 u.2) rest := rfl

theorem ids_updateFirst : ∀ (inv : List InvItem) (iid q : ℕ),
    (updateFirst inv iid q).map (fun it => it.id) = inv.map (fun it => it.id)
  | [], _, _ => rfl
  | it :: rest, iid, q => by
    by_cases h : it.id = iid
    · simp [updateFirst, h]
    · simp [updateFirst, h, ids_updateFirst rest iid q]

theorem ids_applyStockUpdates : ∀ (ups : List (ℕ × ℕ)) (inv : List InvItem),
    (applyStockUpdates inv ups).map (fun it => it.id) = inv.map (fun it => it.id)
  | [], _ => rfl
  | u :: rest, inv => by
    rw [applyStockUpdates_cons, ids_applyStockUpdates rest, ids_updateFirst]

theorem stockOf_updateFirst_self : ∀ (inv : List InvItem) (iid q : ℕ),
    stockOf (updateFirst inv iid q) iid
      = (stockOf inv iid).map (fun s => s - (q : ℤ))
  | [], _, _ => rfl
  | it :: rest, iid, q => by
    by_cases h : it.id = iid
    · unfold updateFirst
      rw [if_pos h]
      unfold stockOf
      rw [List.find?_cons_of_pos _ (by simpa using h),
        List.find?_cons_of_pos _ (by simpa using h)]
      rfl
    · unfold updateFirst
      rw [if_neg h]
      unfold stockOf
      rw [List.find?_cons_of_neg _ (by simpa using h),
        List.find?_cons_of_neg _ (by simpa using h)]
      exact stockOf_updateFirst_self rest iid q

theorem stockOf_updateFirst_other : ∀ (inv : List InvItem) (iid q j : ℕ),
    j ≠ iid → stockOf (updateFirst inv iid q) j = stockOf inv j
  | [], _, _, _ => fun _ => rfl
  | it :: rest, iid, q, j => fun hne => by
    by_cases h : it.id = iid
    · have hj : ¬ it.id = j := fun hc => hne (hc ▸ h)
      unfold updateFirst
      rw [if_pos h]
      unfold stockOf
      rw [List.find?_cons_of_neg _ (by simpa using hj),
        List.find?_cons_of_neg _ (by simpa using hj)]
    · by_cases hj : it.id = j
      · unfold updateFirst
        rw [if_neg h]
        unfold stockOf
        rw [List.find?_cons_of_pos _ (by simpa using hj),
          List.find?_cons_of_pos _ (by simpa using hj)]
      · unfold updateFirst
        rw [if_neg h]
        unfold stockOf
        rw [List.find?_cons_of_neg _ (by simpa using hj),
          List.find?_cons_of_neg _ (by simpa using hj)]
        exact stockOf_updateFirst_other rest iid q j hne

theorem stockOf_applyStockUpdates_not_mem :
    ∀ (ups : List (ℕ × ℕ)) (inv : List InvItem) (j : ℕ),
      j ∉ ups.map Prod.fst →
      stockOf (applyStockUpdates inv ups) j = stockOf inv j
  | [], _, _ => fun _ => rfl
  | u :: rest, inv, j => fun h => by
    simp only [List.map_cons, List.mem_cons] at h
    push_neg at h
    rw [applyStockUpdates_cons,
      stockOf_applyStockUpdates_not_mem rest _ j h.2,
      stockOf_updateFirst_other inv u.1 u.2 j h.1]

/-- Effect of the whole decrement batch on a single id, for a batch with
distinct target ids: the targeted documents lose exactly their decrement,
everything else is untouched. -/
theorem stockOf_applyStockUpdates :
    ∀ (ups : List (ℕ × ℕ)) (inv : List InvItem) (j : ℕ),
      ((ups.map Prod.fst)).Nodup →
      stockOf (applyStockUpdates inv ups) j
        = match ups.find? (fun u => u.1 = j) with
          | some u => (stockOf inv j).map (fun s => s - (u.2 : ℤ))
          | none => stockOf inv j
  | [], _, _ => fun _ => rfl
  | u :: rest, inv, j => fun hnodup => by
    simp only [List.map_cons, List.nodup_cons] at hnodup
    by_cases hj : u.1 = j
    · subst hj
      rw [applyStockUpdates_cons,
        stockOf_applyStockUpdates_not_mem rest _ u.1 hnodup.1,
        stockOf_updateFirst_self]
      simp [List.find?_cons]
    · rw [applyStockUpdates_cons, stockOf_applyStockUpdates rest _ j hnodup.2,
        stockOf_updateFirst_other inv u.1 u.2 j (fun hc => hj hc.symm)]
      simp [List.find?_cons, hj]

/-- In a collection with distinct ids, `find?` on a member's id returns
that member. -/
theorem find?_id_of_mem_nodup :
    ∀ (l : List InvItem), ((l.map fun it => it.id)).Nodup →
      ∀ it ∈ l, l.find? (fun x => x.id = it.id) = some it
  | [], _ => fun it hit => absurd hit (List.not_mem_nil it)
  | h :: rest, hnodup => fun it hit => by
    simp only [List.map_cons, List.nodup_cons] at hnodup
    rcases List.mem_cons.mp hit with rfl | hmem
    · exact List.find?_cons_of_pos _ (by simp)
    · have hne : ¬ h.id = it.id := by
        intro hc
        exact hnodup.1 (hc ▸ List.mem_map.mpr ⟨it, hmem, rfl⟩)
      rw [List.find?_cons_of_neg _ (by simpa using hne)]
      exact find?_id_of_mem_nodup rest hnodup.2 it hmem

/-- In a collection with distinct ids, members are determined by their
id. -/
theorem eq_of_mem_mem_nodup_id {l : List InvItem}
    (hnodup : ((l.map fun it => it.id)).Nodup)
    {it₁ it₂ : InvItem} (h₁ : it₁ ∈ l) (h₂ : it₂ ∈ l) (hid : it₁.id = it₂.id) :
    it₁ = it₂ := by
  have e₁ := find?_id_of_mem_nodup l hnodup it₁ h₁
  have e₂ := find?_id_of_mem_nodup l hnodup it₂ h₂
  rw [← hid] at e₂
  rw [e₁] at e₂
  injection e₂

theorem stockOf_of_mem_nodup {l : List InvItem}
    (hnodup : ((l.map fun it => it.id)).Nodup)
    {it : InvItem} (h : it ∈ l) : stockOf l it.id = some it.stockQty := by
  unfold stockOf
  rw [find?_id_of_mem_nodup l hnodup it h]
  rfl

end SmartShop

namespace SmartShop

/-- In a request with distinct ids, the decrement batch entry found for a
requested id is that item's own `(itemId, quantity)` pair. -/
theorem find?_fst_of_mem_nodup :
    ∀ (items : List ReqItem), ((items.map fun r => r.itemId)).Nodup →
      ∀ r ∈ items,
        ((items.map fun r => (r.itemId, r.quantity)).find?
            (fun u => u.1 = r.itemId)) = some (r.itemId, r.quantity)
  | [], _ => fun r hr => absurd hr (List.not_mem_nil r)
  | h :: rest, hnodup => fun r hr => by
    simp only [List.map_cons, List.nodup_cons] at hnodup
    rcases List.mem_cons.mp hr with rfl | hmem
    · exact List.find?_cons_of_pos _ (by simp)
    · have hne : ¬ h.itemId = r.itemId := by
        intro hc
        exact hnodup.1 (hc ▸ List.mem_map.mpr ⟨r, hmem, rfl⟩)
      rw [List.map_cons, List.find?_cons_of_neg _ (by simpa using hne)]
      exact find?_fst_of_mem_nodup rest hnodup.2 r hmem

/-- C10 — a request whose `items` array names the same `itemId` twice
fetches fewer distinct inventory documents than it has entries, so the
`inventoryItems.length !== items.length` guard fires: the request is
rejected with the 400 "One or more items not found in inventory" error and
the database — stock and sales alike — is untouched, regardless of whether
the item exists or how much stock it has. -/
theorem C10_duplicate_itemId_rejected (year : ℕ) (user : UserCtx)
    (req : SaleRequest) (db : DB) (ci : List String) (notif : NotifBehavior)
    (sid : ℕ)
    (hinv : ((db.inventory.map fun it => it.id)).Nodup)
    (hstore : resolveStore user req db = some sid)
    (hdup : ¬ ((req.items.map fun r => r.itemId)).Nodup) :
    recordSale year user req db ci notif = (.failure 400 .itemsNotFound, db) := by
  apply recordSale_error_of_core
  unfold recordSaleCore
  rw [hstore]
  simp only
  rw [if_pos (Nat.ne_of_lt (fetch_length_lt_of_dup db.inventory req.items hinv hdup))]

/-- Witness for C10: item 1 exists with stock 10, yet the request listing
it twice (quantities 2 and 3, combined well within stock) is rejected with
the items-not-found error and no state change. -/
theorem C10_duplicate_itemId_rejected_witness :
    recordSale 2025 ⟨99, some 7, "staff"⟩
      { items := [{ itemId := 1, quantity := 2, callerUnitPrice := 0,
                    callerTotalPrice := 0, callerItemName := "" },
                  { itemId := 1, quantity := 3, callerUnitPrice := 0,
                    callerTotalPrice := 0, callerItemName := "" }],
        paymentMode := "cash", customerId := none, customerName := "",
        customerPhone := "", customerEmail := "", discount := 0,
        extraDiscount := 0, paymentReference := "", storeId := none,
        gst := none, cgst := none, gstRate := none, cgstRate := none,
        notes := "", sendWhatsApp := false, sendEmail := false }
      { inventory := [{ id := 1, name := "A", brand := "B", sellPrice := 100,
                        mrpPrice := 120, sku := "S", stockQty := 10 }],
        customers := [], stores := [7], sales := [] }
      [] (.returns ⟨0, 0⟩)
      = (.failure 400 .itemsNotFound,
         { inventory := [{ id := 1, name := "A", brand := "B", sellPrice := 100,
                           mrpPrice := 120, sku := "S", stockQty := 10 }],
           customers := [], stores := [7], sales := [] }) :=
  C10_duplicate_itemId_rejected 2025 _ _ _ [] (.returns ⟨0, 0⟩) 7
    (by decide) (by decide) (by decide)

end SmartShop

namespace SmartShop

/-- C1 — when every requested item resolves (the count check passes) but
some requested item's stock is below its requested quantity, `recordSale`
fails with status 400 and the `InsufficientStock` error reporting that
item's name, available stock and requested quantity (the first such item in
request order), the transaction is aborted, and the database — every
item's `stockQty` and the `Sale` collection — is exactly as before:
all-or-nothing, no partial reservation. -/
theorem C1_insufficientStock_allOrNothing (year : ℕ) (user : UserCtx)
    (req : SaleRequest) (db : DB) (ci : List String) (notif : NotifBehavior)
    (sid : ℕ)
    (hinv : ((db.inventory.map fun it => it.id)).Nodup)
    (hstore : resolveStore user req db = some sid)
    (hlen : (fetchSaleInventory db.inventory req.items).length = req.items.length)
    (hshort : ∃ r ∈ req.items, ∃ it ∈ db.inventory,
        it.id = r.itemId ∧ it.stockQty < (r.quantity : ℤ)) :
    ∃ r ∈ req.items, ∃ it ∈ db.inventory, it.id = r.itemId
      ∧ it.stockQty < (r.quantity : ℤ)
      ∧ recordSale year user req db ci notif
          = (.failure 400 (.insufficientStock it.name it.stockQty r.quantity), db) := by
  have hall := all_found_of_len_eq db.inventory req.items hinv hlen
  have hallSome : ∀ r ∈ req.items, ∃ it,
      (fetchSaleInventory db.inventory req.items).find?
        (fun x => x.id = r.itemId) = some it := by
    intro r hr
    rcases hall r hr with ⟨it, hfind, -, -⟩
    exact ⟨it, hfind⟩
  have hexFind : ∃ r ∈ req.items, ∃ it,
      (fetchSaleInventory db.inventory req.items).find?
        (fun x => x.id = r.itemId) = some it
      ∧ it.stockQty < (r.quantity : ℤ) := by
    rcases hshort with ⟨r, hr, it, hitmem, hitid, hitstock⟩
    rcases hall r hr with ⟨it', hfind, hmem', hid'⟩
    have : it = it' := eq_of_mem_mem_nodup_id hinv hitmem hmem' (hitid.trans hid'.symm)
    exact ⟨r, hr, it', hfind, this ▸ hitstock⟩
  rcases buildSaleItems_error_first_insufficient
      (fetchSaleInventory db.inventory req.items) req.items hallSome hexFind with
    ⟨r, hr, it, hfind, hstk, hbuild⟩
  refine ⟨r, hr, it,
    (List.mem_filter.mp (List.mem_of_find?_eq_some hfind)).1,
    (by simpa using List.find?_some hfind), hstk, ?_⟩
  exact recordSale_error_of_core (recordSaleCore_build_error hstore hlen hbuild)

/-- Witness for C1 at the spec's scenario: item 1 has stock 2, the request
asks for 5; the result is the `InsufficientStock` error naming the item,
its available 2 and requested 5, with the database unchanged. -/
theorem C1_insufficientStock_allOrNothing_witness :
    recordSale 2025 ⟨99, some 7, "staff"⟩
      { items := [{ itemId := 1, quantity := 5, callerUnitPrice := 0,
                    callerTotalPrice := 0, callerItemName := "" }],
        paymentMode := "cash", customerId := none, customerName := "",
        customerPhone := "", customerEmail := "", discount := 0,
        extraDiscount := 0, paymentReference := "", storeId := none,
        gst := none, cgst := none, gstRate := none, cgstRate := none,
        notes := "", sendWhatsApp := false, sendEmail := false }
      { inventory := [{ id := 1, name := "A", brand := "B", sellPrice := 100,
                        mrpPrice := 120, sku := "S", stockQty := 2 }],
        customers := [], stores := [7], sales := [] }
      [] (.returns ⟨0, 0⟩)
      = (.failure 400 (.insufficientStock "A" 2 5),
         { inventory := [{ id := 1, name := "A", brand := "B", sellPrice := 100,
                           mrpPrice := 120, sku := "S", stockQty := 2 }],
           customers := [], stores := [7], sales := [] }) := by
  rcases C1_insufficientStock_allOrNothing 2025 ⟨99, some 7, "staff"⟩
      { items := [{ itemId := 1, quantity := 5, callerUnitPrice := 0,
                    callerTotalPrice := 0, callerItemName := "" }],
        paymentMode := "cash", customerId := none, customerName := "",
        customerPhone := "", customerEmail := "", discount := 0,
        extraDiscount := 0, paymentReference := "", storeId := none,
        gst := none, cgst := none, gstRate := none, cgstRate := none,
        notes := "", sendWhatsApp := false, sendEmail := false }
      { inventory := [{ id := 1, name := "A", brand := "B", sellPrice := 100,
                        mrpPrice := 120, sku := "S", stockQty := 2 }],
        customers := [], stores := [7], sales := [] }
      [] (.returns ⟨0, 0⟩) 7 (by decide) (by decide) (by decide)
      (by decide) with ⟨r, hr, it, hit, hid, hstk, heq⟩
  have hr' := List.mem_singleton.mp hr
  have hit' := List.mem_singleton.mp hit
  subst hr'
  subst hit'
  exact heq

end SmartShop

namespace SmartShop

/-- C2 — on every successful `recordSale` over a well-formed inventory
(distinct ids, non-negative stock), each sold item's post-sale stock is
exactly its pre-sale stock minus the quantity sold, every requested
quantity was at most the available stock, and no inventory document is left
with negative stock. -/
theorem C2_stock_conservation (year : ℕ) (user : UserCtx) (req : SaleRequest)
    (db : DB) (ci : List String) (notif : NotifBehavior) {d : SuccessData}
    {db' : DB}
    (hpos : ∀ it ∈ db.inventory, 0 ≤ it.stockQty)
    (hinv : ((db.inventory.map fun it => it.id)).Nodup)
    (hsucc : recordSale year user req db ci notif = (.success d, db')) :
    (∀ r ∈ req.items, ∃ s₀, stockOf db.inventory r.itemId = some s₀
        ∧ (r.quantity : ℤ) ≤ s₀
        ∧ stockOf db'.inventory r.itemId = some (s₀ - (r.quantity : ℤ)))
    ∧ (∀ it ∈ db'.inventory, 0 ≤ it.stockQty) := by
  obtain ⟨em, hcore⟩ := recordSale_success_inv hsucc
  obtain ⟨sid, sis, ups, cid, cname, cphone, cemail, -, hlen, hbuild, -, -, -,
    hdb', -⟩ := recordSaleCore_ok_inv hcore
  obtain ⟨hups, hall⟩ := buildSaleItems_ok_inv _ req.items sis ups hbuild
  have hreqNodup := req_ids_nodup_of_len_eq db.inventory req.items hinv hlen
  have hupsFst : ups.map Prod.fst = req.items.map fun r => r.itemId := by
    rw [hups, List.map_map]
    rfl
  have hupsNodup : (ups.map Prod.fst).Nodup := by rw [hupsFst]; exact hreqNodup
  have hinvEq : db'.inventory = applyStockUpdates db.inventory ups := by
    rw [hdb']
  constructor
  · intro r hr
    rcases hall r hr with ⟨it, hfind, hid, hqty⟩
    have hmemInv : it ∈ db.inventory :=
      (List.mem_filter.mp (List.mem_of_find?_eq_some hfind)).1
    have hstock0 : stockOf db.inventory r.itemId = some it.stockQty := by
      rw [← hid]
      exact stockOf_of_mem_nodup hinv hmemInv
    refine ⟨it.stockQty, hstock0, hqty, ?_⟩
    rw [hinvEq, stockOf_applyStockUpdates ups db.inventory r.itemId hupsNodup]
    have hfindUps : ups.find? (fun u => u.1 = r.itemId)
        = some (r.itemId, r.quantity) := by
      rw [hups]
      exact find?_fst_of_mem_nodup req.items hreqNodup r hr
    rw [hfindUps, hstock0]
    rfl
  · intro it' hit'
    have hidsEq : (db'.inventory.map fun it => it.id)
        = db.inventory.map fun it => it.id := by
      rw [hinvEq]
      exact ids_applyStockUpdates ups db.inventory
    have hnodup' : ((db'.inventory.map fun it => it.id)).Nodup := by
      rw [hidsEq]; exact hinv
    have hstock' : stockOf db'.inventory it'.id = some it'.stockQty :=
      stockOf_of_mem_nodup hnodup' hit'
    -- the same id names a document of the original inventory
    have hidMem : it'.id ∈ db.inventory.map fun it => it.id := by
      rw [← hidsEq]
      exact List.mem_map.mpr ⟨it', hit', rfl⟩
    rcases List.mem_map.mp hidMem with ⟨it₀, hmem₀, hid₀⟩
    have hstock₀ : stockOf db.inventory it'.id = some it₀.stockQty := by
      rw [← hid₀]
      exact stockOf_of_mem_nodup hinv hmem₀
    rw [hinvEq, stockOf_applyStockUpdates ups db.inventory it'.id hupsNodup] at hstock'
    cases hfu : ups.find? (fun u => u.1 = it'.id) with
    | none =>
      rw [hfu] at hstock'
      rw [hstock₀] at hstock'
      have : it'.stockQty = it₀.stockQty := by
        injection hstock' with h
        exact h.symm
      rw [this]
      exact hpos it₀ hmem₀
    | some u =>
      rw [hfu] at hstock'
      have humem : u ∈ ups := List.mem_of_find?_eq_some hfu
      have hufst : u.1 = it'.id := by simpa using List.find?_some hfu
      rw [hups] at humem
      rcases List.mem_map.mp humem with ⟨r, hrmem, hru⟩
      rcases hall r hrmem with ⟨itF, hfindF, hidF, hqtyF⟩
      have hmemF : itF ∈ db.inventory :=
        (List.mem_filter.mp (List.mem_of_find?_eq_some hfindF)).1
      -- the fetched document and the pre-state document with this id agree
      have hidsame : itF.id = it₀.id := by
        rw [hidF]
        have hr1 : r.itemId = u.1 := by rw [← hru]
        rw [hr1, hufst, ← hid₀]
      have : itF = it₀ := eq_of_mem_mem_nodup_id hinv hmemF hmem₀ hidsame
      subst this
      rw [hstock₀] at hstock'
      have h : itF.stockQty - (u.2 : ℤ) = it'.stockQty := by
        simpa using hstock'
      have hq : u.2 = r.quantity := by rw [← hru]
      rw [← h, hq]
      omega

/-- Witness for C2 at the spec's scenario (stock 10, quantity 3): after the
successful sale the item's stock is exactly 7. -/
theorem C2_stock_conservation_witness :
    stockOf (recordSale 2025 ⟨99, some 7, "staff"⟩
      { items := [{ itemId := 1, quantity := 3, callerUnitPrice := 0,
                    callerTotalPrice := 0, callerItemName := "" }],
        paymentMode := "cash", customerId := none, customerName := "",
        customerPhone := "", customerEmail := "", discount := 10,
        extraDiscount := 0, paymentReference := "", storeId := none,
        gst := none, cgst := none, gstRate := none, cgstRate := none,
        notes := "", sendWhatsApp := false, sendEmail := false }
      { inventory := [{ id := 1, name := "A", brand := "B", sellPrice := 100,
                        mrpPrice := 120, sku := "S", stockQty := 10 }],
        customers := [], stores := [7], sales := [] }
      [] (.returns ⟨0, 0⟩)).2.inventory 1 = some 7 := by
  have h := C2_stock_conservation 2025 ⟨99, some 7, "staff"⟩
      { items := [{ itemId := 1, quantity := 3, callerUnitPrice := 0,
                    callerTotalPrice := 0, callerItemName := "" }],
        paymentMode := "cash", customerId := none, customerName := "",
        customerPhone := "", customerEmail := "", discount := 10,
        extraDiscount := 0, paymentReference := "", storeId := none,
        gst := none, cgst := none, gstRate := none, cgstRate := none,
        notes := "", sendWhatsApp := false, sendEmail := false }
      { inventory := [{ id := 1, name := "A", brand := "B", sellPrice := 100,
                        mrpPrice := 120, sku := "S", stockQty := 10 }],
        customers := [], stores := [7], sales := [] }
      [] (.returns ⟨0, 0⟩) (by decide) (by decide) rfl
  rcases h.1 { itemId := 1, quantity := 3, callerUnitPrice := 0,
               callerTotalPrice := 0, callerItemName := "" } (by decide) with
    ⟨s₀, hs₀, -, hfinal⟩
  have h10 : s₀ = 10 := by
    have : stockOf [({ id := 1, name := "A", brand := "B", sellPrice := 100,
                       mrpPrice := 120, sku := "S", stockQty := 10 } : InvItem)] 1
             = some 10 := by decide
    rw [this] at hs₀
    injection hs₀ with h'
    exact h'.symm
  rw [h10] at hfinal
  simpa using hfinal

end SmartShop

namespace SmartShop

/-- Shared shape of a committed transaction replayed against another
commit-index: the core is independent of the index except for the final
uniqueness check, so a clash yields the inner abort plus outer catch —
status 500, database untouched. -/
theorem recordSaleCore_conflict {year : ℕ} {user : UserCtx} {req : SaleRequest}
    {db : DB} {ci₀ ci : List String} {sale : Sale} {db2 : DB} {em : String}
    (hok : recordSaleCore year user req db ci₀ = .ok (sale, db2, em))
    (hconf : sale.invoiceNumber ∈ ci) :
    recordSaleCore year user req db ci = .error (500, .internalError) := by
  obtain ⟨sid, sis, ups, cid, cname, cphone, cemail, hstore, hlen, hbuild, hcust,
    hsale, -, -, -⟩ := recordSaleCore_ok_inv hok
  rw [hsale] at hconf
  unfold recordSaleCore
  rw [hstore]
  simp only
  rw [if_neg (by simp [hlen]), hbuild]
  simp only
  rw [hcust]
  simp only
  rw [if_pos hconf]

/-- C7 (amended) — when the atomic commit hits an invoice-number
uniqueness violation (the number computed inside the transaction already
sits in the unique index because a concurrent writer committed it),
`recordSale` performs **no retry**: the single attempt is aborted, the
database is unchanged, and the caller receives the generic 500
`InternalError` — never a 409. -/
theorem C7_conflict_no_retry_generic_500 (year : ℕ) (user : UserCtx)
    (req : SaleRequest) (db : DB) (ci₀ ci : List String) (notif : NotifBehavior)
    {sale : Sale} {db2 : DB} {em : String}
    (hok : recordSaleCore year user req db ci₀ = .ok (sale, db2, em))
    (hconf : sale.invoiceNumber ∈ ci) :
    recordSale year user req db ci notif = (.failure 500 .internalError, db)
    ∧ (recordSale year user req db ci notif).1.statusCode = 500
    ∧ (recordSale year user req db ci notif).1.statusCode ≠ 409 := by
  have h := @recordSale_error_of_core year user req db ci notif 500
    RecordSaleError.internalError (recordSaleCore_conflict hok hconf)
  refine ⟨h, ?_, ?_⟩
  · rw [h]; rfl
  · rw [h]; norm_num [RecordSaleOutcome.statusCode]

/-- Witness for C7: the sale computes invoice number `INV-2025-000001`,
which a concurrent writer has already committed; the single attempt
surfaces a 500, not a 409. -/
theorem C7_conflict_no_retry_generic_500_witness :
    recordSale 2025 ⟨99, some 7, "staff"⟩
      { items := [{ itemId := 1, quantity := 3, callerUnitPrice := 0,
                    callerTotalPrice := 0, callerItemName := "" }],
        paymentMode := "cash", customerId := none, customerName := "",
        customerPhone := "", customerEmail := "", discount := 0,
        extraDiscount := 0, paymentReference := "", storeId := none,
        gst := none, cgst := none, gstRate := none, cgstRate := none,
        notes := "", sendWhatsApp := false, sendEmail := false }
      { inventory := [{ id := 1, name := "A", brand := "B", sellPrice := 100,
                        mrpPrice := 120, sku := "S", stockQty := 10 }],
        customers := [], stores := [7], sales := [] }
      ["INV-2025-000001", "INV-2024-000009"] (.returns ⟨0, 0⟩)
      = (.failure 500 .internalError,
         { inventory := [{ id := 1, name := "A", brand := "B", sellPrice := 100,
                           mrpPrice := 120, sku := "S", stockQty := 10 }],
           customers := [], stores := [7], sales := [] }) :=
  (C7_conflict_no_retry_generic_500 2025 ⟨99, some 7, "staff"⟩
      { items := [{ itemId := 1, quantity := 3, callerUnitPrice := 0,
                    callerTotalPrice := 0, callerItemName := "" }],
        paymentMode := "cash", customerId := none, customerName := "",
        customerPhone := "", customerEmail := "", discount := 0,
        extraDiscount := 0, paymentReference := "", storeId := none,
        gst := none, cgst := none, gstRate := none, cgstRate := none,
        notes := "", sendWhatsApp := false, sendEmail := false }
      { inventory := [{ id := 1, name := "A", brand := "B", sellPrice := 100,
                        mrpPrice := 120, sku := "S", stockQty := 10 }],
        customers := [], stores := [7], sales := [] }
      [] ["INV-2025-000001", "INV-2024-000009"] (.returns ⟨0, 0⟩)
      rfl (by decide)).1

/-- C7 counterexample — the claim demands an internal bounded retry ending
in a 409 `PersistenceConflict`; on this concrete conflicting run the source
returns the generic 500 on the very first conflict, so the claim as stated
is false. -/
theorem C7_conflict_counterexample :
    (recordSale 2025 ⟨99, some 7, "staff"⟩
      { items := [{ itemId := 1, quantity := 1, callerUnitPrice := 0,
                    callerTotalPrice := 0, callerItemName := "" }],
        paymentMode := "cash", customerId := none, customerName := "",
        customerPhone := "", customerEmail := "", discount := 0,
        extraDiscount := 0, paymentReference := "", storeId := none,
        gst := none, cgst := none, gstRate := none, cgstRate := none,
        notes := "", sendWhatsApp := false, sendEmail := false }
      { inventory := [{ id := 1, name := "A", brand := "B", sellPrice := 100,
                        mrpPrice := 120, sku := "S", stockQty := 10 }],
        customers := [], stores := [7], sales := [] }
      ["INV-2025-000001"] (.returns ⟨0, 0⟩)).1
      = .failure 500 .internalError
    ∧ (recordSale 2025 ⟨99, some 7, "staff"⟩
      { items := [{ itemId := 1, quantity := 1, callerUnitPrice := 0,
                    callerTotalPrice := 0, callerItemName := "" }],
        paymentMode := "cash", customerId := none, customerName := "",
        customerPhone := "", customerEmail := "", discount := 0,
        extraDiscount := 0, paymentReference := "", storeId := none,
        gst := none, cgst := none, gstRate := none, cgstRate := none,
        notes := "", sendWhatsApp := false, sendEmail := false }
      { inventory := [{ id := 1, name := "A", brand := "B", sellPrice := 100,
                        mrpPrice := 120, sku := "S", stockQty := 10 }],
        customers := [], stores := [7], sales := [] }
      ["INV-2025-000001"] (.returns ⟨0, 0⟩)).1.statusCode ≠ 409 := by
  constructor
  · decide
  · decide

end SmartShop

namespace SmartShop

/-- C6 (amended) — every `Sale` persisted by `recordSale` carries
`totalTax = 0` (the literal zero of the source, regardless of the captured
`gst`/`cgst` rates) and `totalAmount = max(0, subtotal − (discount +
extraDiscount))`, hence `totalAmount ≥ 0`; the schema persists no
`savings`, `finalAmount` or `totalDiscount` path, so the invariant on tax
holds only with the stored zero tax, not with a tax computed from the
rates. -/
theorem C6_persisted_sale_amounts (year : ℕ) (user : UserCtx)
    (req : SaleRequest) (db : DB) (ci : List String) (notif : NotifBehavior)
    {d : SuccessData} {db' : DB}
    (hsucc : recordSale year user req db ci notif = (.success d, db')) :
    d.sale.totalTax = 0
    ∧ d.sale.totalAmount
        = max 0 (d.sale.subtotal - (d.sale.discount + d.sale.extraDiscount))
    ∧ 0 ≤ d.sale.totalAmount
    ∧ db'.sales = db.sales ++ [d.sale] := by
  obtain ⟨em, hcore⟩ := recordSale_success_inv hsucc
  obtain ⟨sid, sis, ups, cid, cname, cphone, cemail, -, -, -, -, hsale, -, hdb', -⟩ :=
    recordSaleCore_ok_inv hcore
  refine ⟨?_, ?_, ?_, ?_⟩
  · rw [hsale]
    rfl
  · rw [hsale]
    show (calculatePricing sis req.discount req.extraDiscount).finalAmount
      = max 0 ((calculatePricing sis req.discount req.extraDiscount).subtotal
          - ((calculatePricing sis req.discount req.extraDiscount).discount
              + (calculatePricing sis req.discount req.extraDiscount).extraDiscount))
    rw [calculatePricing_finalAmount]
    rfl
  · rw [hsale]
    show 0 ≤ (calculatePricing sis req.discount req.extraDiscount).finalAmount
    rw [calculatePricing_finalAmount]
    exact le_max_left 0 _
  · rw [hdb']

/-- Witness for C6 at a concrete successful sale (unit price 100, quantity
3, discount 10): the persisted tax is zero and the total amount is the
clamped discounted subtotal, 290. -/
theorem C6_persisted_sale_amounts_witness :
    ((saleOf (recordSale 2025 ⟨99, some 7, "staff"⟩
      { items := [{ itemId := 1, quantity := 3, callerUnitPrice := 0,
                    callerTotalPrice := 0, callerItemName := "" }],
        paymentMode := "cash", customerId := none, customerName := "",
        customerPhone := "", customerEmail := "", discount := 10,
        extraDiscount := 0, paymentReference := "", storeId := none,
        gst := none, cgst := none, gstRate := none, cgstRate := none,
        notes := "", sendWhatsApp := false, sendEmail := false }
      { inventory := [{ id := 1, name := "A", brand := "B", sellPrice := 100,
                        mrpPrice := 120, sku := "S", stockQty := 10 }],
        customers := [], stores := [7], sales := [] }
      [] (.returns ⟨0, 0⟩)).1).map fun s => s.totalTax) = some 0 := by
  have h := C6_persisted_sale_amounts 2025 ⟨99, some 7, "staff"⟩
      { items := [{ itemId := 1, quantity := 3, callerUnitPrice := 0,
                    callerTotalPrice := 0, callerItemName := "" }],
        paymentMode := "cash", customerId := none, customerName := "",
        customerPhone := "", customerEmail := "", discount := 10,
        extraDiscount := 0, paymentReference := "", storeId := none,
        gst := none, cgst := none, gstRate := none, cgstRate := none,
        notes := "", sendWhatsApp := false, sendEmail := false }
      { inventory := [{ id := 1, name := "A", brand := "B", sellPrice := 100,
                        mrpPrice := 120, sku := "S", stockQty := 10 }],
        customers := [], stores := [7], sales := [] }
      [] (.returns ⟨0, 0⟩) rfl
  exact congrArg (fun x => some x) h.1

/-- C6 counterexample — a sale recorded with a captured `gst` rate of 18%
(unit price 100, quantity 1, no discount): the persisted `totalAmount` is
100, while `max(0, subtotal − totalDiscount)` plus the tax the captured
rates prescribe (the formula of `saleSchema.methods.calculateAmounts`,
which `recordSale` never invokes) is 118 — the persisted tax is the
literal 0, so the claimed invariant with rate-derived tax fails. -/
theorem C6_tax_counterexample :
    ((saleOf (recordSale 2025 ⟨99, some 7, "staff"⟩
      { items := [{ itemId := 1, quantity := 1, callerUnitPrice := 0,
                    callerTotalPrice := 0, callerItemName := "" }],
        paymentMode := "cash", customerId := none, customerName := "",
        customerPhone := "", customerEmail := "", discount := 0,
        extraDiscount := 0, paymentReference := "", storeId := none,
        gst := some 18, cgst := none, gstRate := none, cgstRate := none,
        notes := "", sendWhatsApp := false, sendEmail := false }
      { inventory := [{ id := 1, name := "A", brand := "B", sellPrice := 100,
                        mrpPrice := 120, sku := "S", stockQty := 10 }],
        customers := [], stores := [7], sales := [] }
      [] (.returns ⟨0, 0⟩)).1).map fun s => s.totalAmount) = some 100
    ∧ ((saleOf (recordSale 2025 ⟨99, some 7, "staff"⟩
      { items := [{ itemId := 1, quantity := 1, callerUnitPrice := 0,
                    callerTotalPrice := 0, callerItemName := "" }],
        paymentMode := "cash", customerId := none, customerName := "",
        customerPhone := "", customerEmail := "", discount := 0,
        extraDiscount := 0, paymentReference := "", storeId := none,
        gst := some 18, cgst := none, gstRate := none, cgstRate := none,
        notes := "", sendWhatsApp := false, sendEmail := false }
      { inventory := [{ id := 1, name := "A", brand := "B", sellPrice := 100,
                        mrpPrice := 120, sku := "S", stockQty := 10 }],
        customers := [], stores := [7], sales := [] }
      [] (.returns ⟨0, 0⟩)).1).map fun s =>
        max 0 (s.subtotal - (s.discount + s.extraDiscount)) + saleTaxFromRates s)
      = some 118
    ∧ some (100 : ℚ) ≠ some (118 : ℚ) := by
  have hs : saleOf (recordSale 2025 ⟨99, some 7, "staff"⟩
      { items := [{ itemId := 1, quantity := 1, callerUnitPrice := 0,
                    callerTotalPrice := 0, callerItemName := "" }],
        paymentMode := "cash", customerId := none, customerName := "",
        customerPhone := "", customerEmail := "", discount := 0,
        extraDiscount := 0, paymentReference := "", storeId := none,
        gst := some 18, cgst := none, gstRate := none, cgstRate := none,
        notes := "", sendWhatsApp := false, sendEmail := false }
      { inventory := [{ id := 1, name := "A", brand := "B", sellPrice := 100,
                        mrpPrice := 120, sku := "S", stockQty := 10 }],
        customers := [], stores := [7], sales := [] }
      [] (.returns ⟨0, 0⟩)).1
      = some (mkSaleRecord ⟨99, some 7, "staff"⟩
      { items := [{ itemId := 1, quantity := 1, callerUnitPrice := 0,
                    callerTotalPrice := 0, callerItemName := "" }],
        paymentMode := "cash", customerId := none, customerName := "",
        customerPhone := "", customerEmail := "", discount := 0,
        extraDiscount := 0, paymentReference := "", storeId := none,
        gst := some 18, cgst := none, gstRate := none, cgstRate := none,
        notes := "", sendWhatsApp := false, sendEmail := false }
      7
      (calculatePricing
        [mkSaleItem { id := 1, name := "A", brand := "B", sellPrice := 100,
                      mrpPrice := 120, sku := "S", stockQty := 10 } 1]
        0 0)
      none "Walk-in Customer" "" "" "INV-2025-000001") := rfl
  rw [hs]
  simp only [Option.map_some']
  refine ⟨?_, ?_, ?_⟩
  · norm_num [mkSaleRecord, calculatePricing, mkSaleItem]
  · norm_num [mkSaleRecord, calculatePricing, mkSaleItem, saleTaxFromRates, jsOrQ]
  · norm_num

end SmartShop

namespace SmartShop

/-- C8 (amended) — once the transaction has committed, a **thrown**
notification dispatch is caught by the inner try/catch: the response is
still the 201 success, the committed sale and the applied stock decrements
are exactly those of a run whose dispatch did not throw, but
`notificationResults` keeps its initial `null`, so the 201 response carries
**no** notification block at all — the thrown failure is logged yet not
surfaced as a partial-failure indicator (only channel-level failures that
the dispatcher returns without throwing are surfaced). -/
theorem C8_notification_throw_isolated (year : ℕ) (user : UserCtx)
    (req : SaleRequest) (db : DB) (ci : List String) {d : SuccessData}
    {db' : DB}
    (hsucc : recordSale year user req db ci .throws = (.success d, db')) :
    d.notifications = none
    ∧ (RecordSaleOutcome.success d).statusCode = 201
    ∧ db'.sales = db.sales ++ [d.sale]
    ∧ ∀ notif' : NotifBehavior, ∃ d₂ : SuccessData,
        recordSale year user req db ci notif' = (.success d₂, db')
        ∧ d₂.sale = d.sale := by
  obtain ⟨em, hcore⟩ := recordSale_success_inv hsucc
  have hbuild : ∀ notif' : NotifBehavior,
      recordSale year user req db ci notif'
        = (.success { sale := d.sale,
                      invoiceNumber := d.sale.invoiceNumber,
                      totalAmount := d.sale.totalAmount,
                      itemsCount := d.sale.items.length,
                      savingsResp := none,
                      notifications := if req.sendEmail && em ≠ "" then
                          (match notif' with
                           | .throws => none
                           | .returns s => some s)
                        else none }, db') := by
    intro notif'
    unfold recordSale
    rw [hcore]
  have hd := hbuild .throws
  rw [hsucc] at hd
  simp only [Prod.mk.injEq, RecordSaleOutcome.success.injEq] at hd
  have hdEq := hd.1
  refine ⟨?_, rfl, ?_, ?_⟩
  · rw [hdEq]
    simp
  · obtain ⟨_, _, _, _, _, _, _, _, _, _, _, _, _, hdb2, _⟩ :=
      recordSaleCore_ok_inv hcore
    rw [hdb2]
  · intro notif'
    exact ⟨_, hbuild notif', rfl⟩

/-- Witness for C8: a committed sale whose email dispatch throws still
produces a 201 whose notification block is absent. -/
theorem C8_notification_throw_isolated_witness :
    notifFieldOf (recordSale 2025 ⟨99, some 7, "staff"⟩
      { items := [{ itemId := 1, quantity := 2, callerUnitPrice := 0,
                    callerTotalPrice := 0, callerItemName := "" }],
        paymentMode := "cash", customerId := none, customerName := "",
        customerPhone := "", customerEmail := "cust@example.com",
        discount := 0, extraDiscount := 0, paymentReference := "",
        storeId := none, gst := none, cgst := none, gstRate := none,
        cgstRate := none, notes := "", sendWhatsApp := false,
        sendEmail := true }
      { inventory := [{ id := 1, name := "A", brand := "B", sellPrice := 100,
                        mrpPrice := 120, sku := "S", stockQty := 10 }],
        customers := [], stores := [7], sales := [] }
      [] .throws).1 = some none := by
  have h := C8_notification_throw_isolated 2025 ⟨99, some 7, "staff"⟩
      { items := [{ itemId := 1, quantity := 2, callerUnitPrice := 0,
                    callerTotalPrice := 0, callerItemName := "" }],
        paymentMode := "cash", customerId := none, customerName := "",
        customerPhone := "", customerEmail := "cust@example.com",
        discount := 0, extraDiscount := 0, paymentReference := "",
        storeId := none, gst := none, cgst := none, gstRate := none,
        cgstRate := none, notes := "", sendWhatsApp := false,
        sendEmail := true }
      { inventory := [{ id := 1, name := "A", brand := "B", sellPrice := 100,
                        mrpPrice := 120, sku := "S", stockQty := 10 }],
        customers := [], stores := [7], sales := [] }
      [] rfl
  exact congrArg (fun x => some x) h.1

/-- C8 counterexample — same request with email notification requested and
a customer email present: when the dispatch throws, the response is a 201
with **no** notification field (`some none` under `notifFieldOf`), whereas
a dispatch that returns failure data does surface a block; so the thrown
failure is not "surfaced in the 201 success response as a partial-failure
indicator" as claimed. -/
theorem C8_notification_throw_counterexample :
    notifFieldOf (recordSale 2025 ⟨99, some 7, "staff"⟩
      { items := [{ itemId := 1, quantity := 1, callerUnitPrice := 0,
                    callerTotalPrice := 0, callerItemName := "" }],
        paymentMode := "cash", customerId := none, customerName := "",
        customerPhone := "", customerEmail := "c@d.e", discount := 0,
        extraDiscount := 0, paymentReference := "", storeId := none,
        gst := none, cgst := none, gstRate := none, cgstRate := none,
        notes := "", sendWhatsApp := false, sendEmail := true }
      { inventory := [{ id := 1, name := "A", brand := "B", sellPrice := 100,
                        mrpPrice := 120, sku := "S", stockQty := 10 }],
        customers := [], stores := [7], sales := [] }
      [] .throws).1 = some none
    ∧ (recordSale 2025 ⟨99, some 7, "staff"⟩
      { items := [{ itemId := 1, quantity := 1, callerUnitPrice := 0,
                    callerTotalPrice := 0, callerItemName := "" }],
        paymentMode := "cash", customerId := none, customerName := "",
        customerPhone := "", customerEmail := "c@d.e", discount := 0,
        extraDiscount := 0, paymentReference := "", storeId := none,
        gst := none, cgst := none, gstRate := none, cgstRate := none,
        notes := "", sendWhatsApp := false, sendEmail := true }
      { inventory := [{ id := 1, name := "A", brand := "B", sellPrice := 100,
                        mrpPrice := 120, sku := "S", stockQty := 10 }],
        customers := [], stores := [7], sales := [] }
      [] .throws).1.statusCode = 201
    ∧ notifFieldOf (recordSale 2025 ⟨99, some 7, "staff"⟩
      { items := [{ itemId := 1, quantity := 1, callerUnitPrice := 0,
                    callerTotalPrice := 0, callerItemName := "" }],
        paymentMode := "cash", customerId := none, customerName := "",
        customerPhone := "", customerEmail := "c@d.e", discount := 0,
        extraDiscount := 0, paymentReference := "", storeId := none,
        gst := none, cgst := none, gstRate := none, cgstRate := none,
        notes := "", sendWhatsApp := false, sendEmail := true }
      { inventory := [{ id := 1, name := "A", brand := "B", sellPrice := 100,
                        mrpPrice := 120, sku := "S", stockQty := 10 }],
        customers := [], stores := [7], sales := [] }
      [] (.returns ⟨0, 1⟩)).1 = some (some ⟨0, 1⟩) :=
  ⟨rfl, rfl, rfl⟩

end SmartShop

namespace SmartShop

/-- The `$in` fetch predicate only reads each entry's `itemId`. -/
theorem any_itemId_congr (it : InvItem) :
    ∀ (l₁ l₂ : List ReqItem),
      l₁.map (fun r => r.itemId) = l₂.map (fun r => r.itemId) →
      (l₁.any fun r => r.itemId = it.id) = (l₂.any fun r => r.itemId = it.id)
  | [], [], _ => rfl
  | [], _ :: _, h => by simp at h
  | _ :: _, [], h => by simp at h
  | r₁ :: rest₁, r₂ :: rest₂, h => by
    simp only [List.map_cons, List.cons.injEq] at h
    simp only [List.any_cons, h.1, any_itemId_congr it rest₁ rest₂ h.2]

/-- The fetched set depends only on the requested ids. -/
theorem fetchSaleInventory_congr (inv : List InvItem) (l₁ l₂ : List ReqItem)
    (h : l₁.map (fun r => r.itemId) = l₂.map (fun r => r.itemId)) :
    fetchSaleInventory inv l₁ = fetchSaleInventory inv l₂ := by
  unfold fetchSaleInventory
  congr 1
  funext it
  exact any_itemId_congr it l₁ l₂ h

/-- The validation/snapshot loop depends only on each entry's `itemId` and
`quantity`. -/
theorem buildSaleItems_congr (fetched : List InvItem) :
    ∀ (l₁ l₂ : List ReqItem),
      l₁.map (fun r => (r.itemId, r.quantity))
        = l₂.map (fun r => (r.itemId, r.quantity)) →
      buildSaleItems fetched l₁ = buildSaleItems fetched l₂
  | [], [], _ => rfl
  | [], _ :: _, h => by simp at h
  | _ :: _, [], h => by simp at h
  | r₁ :: rest₁, r₂ :: rest₂, h => by
    simp only [List.map_cons, List.cons.injEq, Prod.mk.injEq] at h
    obtain ⟨⟨hid, hq⟩, htail⟩ := h
    unfold buildSaleItems
    rw [hid, hq, buildSaleItems_congr fetched rest₁ rest₂ htail]

/-- C9 — the persisted snapshots and everything derived from them are
computed solely from the inventory documents read inside the transaction:
two requests that agree on everything except the caller-attached price and
name fields of their item entries (same `itemId` and `quantity` per entry)
produce **identical** outcomes — response and database state alike — so
caller-supplied `unitPrice`/`totalPrice`/name values are never trusted. -/
theorem C9_caller_price_fields_ignored (year : ℕ) (user : UserCtx)
    (req : SaleRequest) (items₁ items₂ : List ReqItem) (db : DB)
    (ci : List String) (notif : NotifBehavior)
    (h : items₁.map (fun r => (r.itemId, r.quantity))
        = items₂.map (fun r => (r.itemId, r.quantity))) :
    recordSale year user { req with items := items₁ } db ci notif
      = recordSale year user { req with items := items₂ } db ci notif := by
  have hid : items₁.map (fun r => r.itemId) = items₂.map (fun r => r.itemId) := by
    have h2 := congrArg (List.map Prod.fst) h
    simpa [List.map_map, Function.comp] using h2
  have hlen : items₁.length = items₂.length := by
    have := congrArg List.length h
    simpa using this
  have hcore : recordSaleCore year user { req with items := items₁ } db ci
      = recordSaleCore year user { req with items := items₂ } db ci := by
    unfold recordSaleCore
    simp only
    rw [fetchSaleInventory_congr db.inventory items₁ items₂ hid,
      buildSaleItems_congr (fetchSaleInventory db.inventory items₂) items₁ items₂ h,
      hlen]
    rfl
  unfold recordSale
  rw [hcore]

/-- Witness for C9: two requests for the same item and quantity whose
entries carry wildly different caller-supplied prices and names produce
identical outcomes. -/
theorem C9_caller_price_fields_ignored_witness :
    recordSale 2025 ⟨99, some 7, "staff"⟩
      { items := [{ itemId := 1, quantity := 3, callerUnitPrice := 1,
                    callerTotalPrice := 1, callerItemName := "cheap" }],
        paymentMode := "cash", customerId := none, customerName := "",
        customerPhone := "", customerEmail := "", discount := 10,
        extraDiscount := 0, paymentReference := "", storeId := none,
        gst := none, cgst := none, gstRate := none, cgstRate := none,
        notes := "", sendWhatsApp := false, sendEmail := false }
      { inventory := [{ id := 1, name := "A", brand := "B", sellPrice := 100,
                        mrpPrice := 120, sku := "S", stockQty := 10 }],
        customers := [], stores := [7], sales := [] }
      [] (.returns ⟨0, 0⟩)
      = recordSale 2025 ⟨99, some 7, "staff"⟩
      { items := [{ itemId := 1, quantity := 3, callerUnitPrice := 9999,
                    callerTotalPrice := 424242, callerItemName := "gold" }],
        paymentMode := "cash", customerId := none, customerName := "",
        customerPhone := "", customerEmail := "", discount := 10,
        extraDiscount := 0, paymentReference := "", storeId := none,
        gst := none, cgst := none, gstRate := none, cgstRate := none,
        notes := "", sendWhatsApp := false, sendEmail := false }
      { inventory := [{ id := 1, name := "A", brand := "B", sellPrice := 100,
                        mrpPrice := 120, sku := "S", stockQty := 10 }],
        customers := [], stores := [7], sales := [] }
      [] (.returns ⟨0, 0⟩) :=
  C9_caller_price_fields_ignored 2025 ⟨99, some 7, "staff"⟩
      { items := [{ itemId := 1, quantity := 3, callerUnitPrice := 1,
                    callerTotalPrice := 1, callerItemName := "cheap" }],
        paymentMode := "cash", customerId := none, customerName := "",
        customerPhone := "", customerEmail := "", discount := 10,
        extraDiscount := 0, paymentReference := "", storeId := none,
        gst := none, cgst := none, gstRate := none, cgstRate := none,
        notes := "", sendWhatsApp := false, sendEmail := false }
      [{ itemId := 1, quantity := 3, callerUnitPrice := 1,
         callerTotalPrice := 1, callerItemName := "cheap" }]
      [{ itemId := 1, quantity := 3, callerUnitPrice := 9999,
         callerTotalPrice := 424242, callerItemName := "gold" }]
      { inventory := [{ id := 1, name := "A", brand := "B", sellPrice := 100,
                        mrpPrice := 120, sku := "S", stockQty := 10 }],
        customers := [], stores := [7], sales := [] }
      [] (.returns ⟨0, 0⟩) (by decide)

end SmartShop

namespace SmartShop

/-! ## Digit-string arithmetic for the invoice number generator -/

theorem char_eq_of_toNat_eq {a b : Char} (h : a.toNat = b.toNat) : a = b := by
  have h1 : a.val = b.val := by
    apply UInt32.eq_of_val_eq
    apply Fin.eq_of_val_eq
    exact h
  exact Char.eq_of_val_eq h1

theorem digitChar_toNat {d : ℕ} (hd : d < 10) : (digitChar d).toNat = 48 + d := by
  interval_cases d <;> rfl

theorem isDigitCh_digitChar {d : ℕ} (hd : d < 10) : isDigitCh (digitChar d) = true := by
  interval_cases d <;> rfl

theorem digitVal_digitChar {d : ℕ} (hd : d < 10) : digitVal (digitChar d) = d := by
  interval_cases d <;> rfl

theorem isDigitCh_toNat {c : Char} (h : isDigitCh c = true) :
    48 ≤ c.toNat ∧ c.toNat ≤ 57 := by
  unfold isDigitCh at h
  simp only [Bool.and_eq_true, decide_eq_true_eq] at h
  exact h

theorem digitVal_le_nine {c : Char} (h : isDigitCh c = true) : digitVal c ≤ 9 := by
  obtain ⟨h1, h2⟩ := isDigitCh_toNat h
  unfold digitVal
  omega

/-- Digit characters compare by their numeric values. -/
theorem digit_toNat_lt_iff {c d : Char} (hc : isDigitCh c = true)
    (hd : isDigitCh d = true) : c.toNat < d.toNat ↔ digitVal c < digitVal d := by
  obtain ⟨hc1, -⟩ := isDigitCh_toNat hc
  obtain ⟨hd1, -⟩ := isDigitCh_toNat hd
  unfold digitVal
  omega

theorem valDigits_nil : valDigits [] = 0 := rfl

theorem valDigits_go : ∀ (l : List Char) (a : ℕ),
    l.foldl (fun x c => 10 * x + digitVal c) a = a * 10 ^ l.length + valDigits l
  | [], a => by simp [valDigits]
  | c :: l, a => by
    rw [List.foldl_cons, valDigits_go l (10 * a + digitVal c)]
    unfold valDigits
    rw [List.foldl_cons, valDigits_go l (10 * 0 + digitVal c)]
    simp [List.length_cons]
    unfold valDigits
    ring

theorem valDigits_cons (c : Char) (l : List Char) :
    valDigits (c :: l) = digitVal c * 10 ^ l.length + valDigits l := by
  unfold valDigits
  rw [List.foldl_cons, valDigits_go l (10 * 0 + digitVal c)]
  ring_nf
  rfl

/-- A run of `k` digits is numerically below `10^k`. -/
theorem valDigits_lt : ∀ (l : List Char), (∀ c ∈ l, isDigitCh c = true) →
    valDigits l < 10 ^ l.length
  | [], _ => by simp [valDigits]
  | c :: l, h => by
    rw [valDigits_cons]
    have h1 := digitVal_le_nine (h c (List.mem_cons_self c l))
    have h2 := valDigits_lt l (fun d hd => h d (List.mem_cons_of_mem c hd))
    have h3 : (10 : ℕ) ^ (c :: l).length = 10 * 10 ^ l.length := by
      rw [List.length_cons, pow_succ]
      ring
    rw [h3]
    nlinarith

theorem valDigits_append_singleton (l : List Char) (c : Char) :
    valDigits (l ++ [c]) = 10 * valDigits l + digitVal c := by
  unfold valDigits
  rw [List.foldl_append]
  rfl

theorem valDigits_replicate_zero : ∀ (k : ℕ) (l : List Char),
    valDigits (List.replicate k '0' ++ l) = valDigits l
  | 0, l => rfl
  | k + 1, l => by
    rw [List.replicate_succ, List.cons_append]
    unfold valDigits
    rw [List.foldl_cons]
    show (List.replicate k '0' ++ l).foldl (fun x c => 10 * x + digitVal c) 0
      = l.foldl (fun x c => 10 * x + digitVal c) 0
    exact valDigits_replicate_zero k l

end SmartShop

namespace SmartShop

theorem natDigitsRev_eq_digits : ∀ (fuel n : ℕ), n ≤ fuel →
    natDigitsRev fuel n = Nat.digits 10 n
  | 0, n, h => by
    interval_cases n
    simp [natDigitsRev]
  | fuel + 1, n, h => by
    by_cases hn : n = 0
    · subst hn
      simp [natDigitsRev]
    · rw [natDigitsRev, if_neg hn,
        Nat.digits_def' (by norm_num : (1 : ℕ) < 10) (Nat.pos_of_ne_zero hn)]
      congr 1
      have hdiv : n / 10 < n := Nat.div_lt_self (Nat.pos_of_ne_zero hn) (by norm_num)
      exact natDigitsRev_eq_digits fuel (n / 10) (by omega)

theorem valDigits_rev_map : ∀ (L : List ℕ), (∀ d ∈ L, d < 10) →
    valDigits ((L.map digitChar).reverse) = Nat.ofDigits 10 L
  | [], _ => by simp [valDigits, Nat.ofDigits]
  | d :: L, h => by
    rw [List.map_cons, List.reverse_cons, valDigits_append_singleton,
      valDigits_rev_map L (fun x hx => h x (List.mem_cons_of_mem d hx)),
      digitVal_digitChar (h d (List.mem_cons_self d L)), Nat.ofDigits_cons]
    push_cast
    ring

theorem natToString_data {n : ℕ} (hn : n ≠ 0) :
    (natToString n).data = ((Nat.digits 10 n).map digitChar).reverse := by
  unfold natToString
  rw [if_neg hn]
  show ((natDigitsRev (n + 1) n).map digitChar).reverse = _
  rw [natDigitsRev_eq_digits (n + 1) n (Nat.le_succ n)]

theorem natToString_all_digits (n : ℕ) :
    ∀ c ∈ (natToString n).data, isDigitCh c = true := by
  by_cases hn : n = 0
  · subst hn
    intro c hc
    have : c = '0' := by simpa [natToString] using hc
    subst this
    rfl
  · rw [natToString_data hn]
    intro c hc
    rw [List.mem_reverse, List.mem_map] at hc
    rcases hc with ⟨d, hd, rfl⟩
    exact isDigitCh_digitChar (Nat.digits_lt_base (by norm_num) hd)

theorem valDigits_natToString (n : ℕ) : valDigits (natToString n).data = n := by
  by_cases hn : n = 0
  · subst hn
    rfl
  · rw [natToString_data hn,
      valDigits_rev_map _ (fun d hd => Nat.digits_lt_base (by norm_num) hd),
      Nat.ofDigits_digits]

theorem natToString_length_le {n : ℕ} (h : n < 1000000) :
    (natToString n).data.length ≤ 6 := by
  by_cases hn : n = 0
  · subst hn
    norm_num [natToString]
  · rw [natToString_data hn, List.length_reverse, List.length_map]
    by_contra hlen
    push_neg at hlen
    have h2 := Nat.base_pow_length_digits_le 10 n (by norm_num) hn
    have h3 : (10 : ℕ) ^ 7 ≤ 10 ^ (Nat.digits 10 n).length :=
      Nat.pow_le_pow_right (by norm_num) hlen
    omega

theorem natToString_ne_nil (n : ℕ) : (natToString n).data ≠ [] := by
  by_cases hn : n = 0
  · subst hn
    simp [natToString]
  · rw [natToString_data hn]
    simp only [ne_eq, List.reverse_eq_nil_iff, List.map_eq_nil]
    exact Nat.digits_ne_nil_iff_ne_zero.mpr hn

/-- The padded 6-digit rendering `padStart6 (natToString n)`. -/
def pad6Nat (n : ℕ) : String := padStart6 (natToString n)

theorem pad6Nat_data (n : ℕ) : (pad6Nat n).data
    = List.replicate (6 - (natToString n).data.length) '0' ++ (natToString n).data :=
  rfl

theorem pad6Nat_all_digits (n : ℕ) :
    ∀ c ∈ (pad6Nat n).data, isDigitCh c = true := by
  rw [pad6Nat_data]
  intro c hc
  rcases List.mem_append.mp hc with hc | hc
  · have : c = '0' := List.eq_of_mem_replicate hc
    subst this
    rfl
  · exact natToString_all_digits n c hc

theorem valDigits_pad6Nat (n : ℕ) : valDigits (pad6Nat n).data = n := by
  rw [pad6Nat_data, valDigits_replicate_zero, valDigits_natToString]

theorem pad6Nat_length {n : ℕ} (h : n < 1000000) : (pad6Nat n).data.length = 6 := by
  rw [pad6Nat_data, List.length_append, List.length_replicate]
  have := natToString_length_le h
  omega

theorem pad6Nat_inj {m n : ℕ} (h : pad6Nat m = pad6Nat n) : m = n := by
  have h2 := congrArg (fun s => valDigits s.data) h
  simpa [valDigits_pad6Nat] using h2

theorem pad6Nat_ne_nil (n : ℕ) : (pad6Nat n).data ≠ [] := by
  rw [pad6Nat_data]
  simp only [ne_eq, List.append_eq_nil]
  rintro ⟨-, h2⟩
  exact natToString_ne_nil n h2

theorem jsParseIntNat_pad6Nat (n : ℕ) : jsParseIntNat (pad6Nat n) = some n := by
  unfold jsParseIntNat
  rw [List.takeWhile_eq_self_iff.mpr (pad6Nat_all_digits n)]
  simp only [List.isEmpty_iff]
  rw [if_neg (pad6Nat_ne_nil n), valDigits_pad6Nat]

end SmartShop

namespace SmartShop

/-! ## The MongoDB string order: irreflexive, transitive, connected -/

theorem listStrLtB_irrefl : ∀ (l : List Char), listStrLtB l l = false
  | [] => rfl
  | c :: l => by
    unfold listStrLtB
    rw [if_neg (lt_irrefl c.toNat), if_neg (lt_irrefl c.toNat)]
    exact listStrLtB_irrefl l

theorem listStrLtB_trans : ∀ (a b c : List Char),
    listStrLtB a b = true → listStrLtB b c = true → listStrLtB a c = true
  | [], [], _, h1, _ => by simp [listStrLtB] at h1
  | [], _ :: _, [], _, h2 => by simp [listStrLtB] at h2
  | [], _ :: _, _ :: _, _, _ => rfl
  | _ :: _, [], _, h1, _ => by simp [listStrLtB] at h1
  | _ :: _, _ :: _, [], _, h2 => by simp [listStrLtB] at h2
  | a :: as, b :: bs, c :: cs, h1, h2 => by
    unfold listStrLtB at h1 h2 ⊢
    by_cases hab : a.toNat < b.toNat <;> by_cases hbc : b.toNat < c.toNat
    · rw [if_pos (by omega : a.toNat < c.toNat)]
    · rw [if_neg hbc] at h2
      by_cases hcb : c.toNat < b.toNat
      · rw [if_pos hcb] at h2
        exact absurd h2 (by simp)
      · rw [if_neg hcb] at h2
        rw [if_pos (by omega : a.toNat < c.toNat)]
    · rw [if_neg hab] at h1
      by_cases hba : b.toNat < a.toNat
      · rw [if_pos hba] at h1
        exact absurd h1 (by simp)
      · rw [if_neg hba] at h1
        rw [if_pos (by omega : a.toNat < c.toNat)]
    · rw [if_neg hab] at h1
      by_cases hba : b.toNat < a.toNat
      · rw [if_pos hba] at h1
        exact absurd h1 (by simp)
      · rw [if_neg hba] at h1
        rw [if_neg hbc] at h2
        by_cases hcb : c.toNat < b.toNat
        · rw [if_pos hcb] at h2
          exact absurd h2 (by simp)
        · rw [if_neg hcb] at h2
          rw [if_neg (by omega : ¬ a.toNat < c.toNat),
            if_neg (by omega : ¬ c.toNat < a.toNat)]
          exact listStrLtB_trans as bs cs h1 h2

theorem listStrLtB_eq_of_not_lt : ∀ (a b : List Char),
    listStrLtB a b = false → listStrLtB b a = false → a = b
  | [], [], _, _ => rfl
  | [], _ :: _, h1, _ => by simp [listStrLtB] at h1
  | _ :: _, [], _, h2 => by simp [listStrLtB] at h2
  | a :: as, b :: bs, h1, h2 => by
    unfold listStrLtB at h1 h2
    by_cases hab : a.toNat < b.toNat
    · rw [if_pos hab] at h1
      exact absurd h1 (by simp)
    · by_cases hba : b.toNat < a.toNat
      · rw [if_pos hba] at h2
        exact absurd h2 (by simp)
      · rw [if_neg hab, if_neg hba] at h1
        rw [if_neg hba, if_neg hab] at h2
        have heq : a = b := char_eq_of_toNat_eq (by omega)
        rw [heq, listStrLtB_eq_of_not_lt as bs h1 h2]

theorem listStrLtB_cons_cons (x y : Char) (xs ys : List Char) :
    listStrLtB (x :: xs) (y :: ys)
      = if x.toNat < y.toNat then true
        else if y.toNat < x.toNat then false
        else listStrLtB xs ys := rfl

theorem listStrLtB_append_left : ∀ (p a b : List Char),
    listStrLtB (p ++ a) (p ++ b) = listStrLtB a b
  | [], _, _ => rfl
  | c :: p, a, b => by
    rw [List.cons_append, List.cons_append, listStrLtB_cons_cons,
      if_neg (lt_irrefl c.toNat), if_neg (lt_irrefl c.toNat)]
    exact listStrLtB_append_left p a b

/-- On equal-length digit runs, the MongoDB string order is exactly the
numeric order of the suffix values. -/
theorem listStrLtB_digits_iff : ∀ (a b : List Char),
    (∀ c ∈ a, isDigitCh c = true) → (∀ c ∈ b, isDigitCh c = true) →
    a.length = b.length →
    (listStrLtB a b = true ↔ valDigits a < valDigits b)
  | [], [], _, _, _ => by simp [listStrLtB]
  | [], _ :: _, _, _, hlen => by exact absurd hlen (by simp)
  | _ :: _, [], _, _, hlen => by exact absurd hlen (by simp)
  | a :: as, b :: bs, ha, hb, hlen => by
    have hlen' : as.length = bs.length := by simpa using hlen
    have hda := ha a (List.mem_cons_self a as)
    have hdb := hb b (List.mem_cons_self b bs)
    have hdas : ∀ c ∈ as, isDigitCh c = true :=
      fun c hc => ha c (List.mem_cons_of_mem a hc)
    have hdbs : ∀ c ∈ bs, isDigitCh c = true :=
      fun c hc => hb c (List.mem_cons_of_mem b hc)
    have hva := valDigits_lt as hdas
    have hvb := valDigits_lt bs hdbs
    rw [valDigits_cons, valDigits_cons, ← hlen']
    unfold listStrLtB
    by_cases hab : a.toNat < b.toNat
    · rw [if_pos hab]
      simp only [true_iff]
      have hd := (digit_toNat_lt_iff hda hdb).mp hab
      calc digitVal a * 10 ^ as.length + valDigits as
          < digitVal a * 10 ^ as.length + 10 ^ as.length := by omega
        _ = (digitVal a + 1) * 10 ^ as.length := by ring
        _ ≤ digitVal b * 10 ^ as.length := by
            exact Nat.mul_le_mul_right _ (by omega)
        _ ≤ digitVal b * 10 ^ as.length + valDigits bs := Nat.le_add_right _ _
    · by_cases hba : b.toNat < a.toNat
      · rw [if_neg hab, if_pos hba]
        simp only [Bool.false_eq_true, false_iff, not_lt]
        have hd := (digit_toNat_lt_iff hdb hda).mp hba
        have hvbs : valDigits bs < 10 ^ as.length := hlen' ▸ hvb
        have hlt : digitVal b * 10 ^ as.length + valDigits bs
            < digitVal a * 10 ^ as.length + valDigits as := by
          calc digitVal b * 10 ^ as.length + valDigits bs
              < digitVal b * 10 ^ as.length + 10 ^ as.length := by omega
            _ = (digitVal b + 1) * 10 ^ as.length := by ring
            _ ≤ digitVal a * 10 ^ as.length := by
                exact Nat.mul_le_mul_right _ (by omega)
            _ ≤ digitVal a * 10 ^ as.length + valDigits as := Nat.le_add_right _ _
        exact le_of_lt hlt
      · rw [if_neg hab, if_neg hba]
        have heqd : digitVal a = digitVal b := by
          obtain ⟨h1, -⟩ := isDigitCh_toNat hda
          obtain ⟨h2, -⟩ := isDigitCh_toNat hdb
          unfold digitVal
          omega
        rw [heqd]
        rw [listStrLtB_digits_iff as bs hdas hdbs hlen']
        omega

end SmartShop

namespace SmartShop

theorem string_ext {s t : String} (h : s.data = t.data) : s = t :=
  congrArg String.mk h

theorem strLtB_irrefl (s : String) : strLtB s s = false := listStrLtB_irrefl s.data

theorem strLtB_trans {a b c : String} (h1 : strLtB a b = true)
    (h2 : strLtB b c = true) : strLtB a c = true :=
  listStrLtB_trans _ _ _ h1 h2

theorem strLtB_eq_of_not_lt {a b : String} (h1 : strLtB a b = false)
    (h2 : strLtB b a = false) : a = b :=
  string_ext (listStrLtB_eq_of_not_lt _ _ h1 h2)

/-- Invariant of the descending-sort-plus-`findOne` fold: the result is the
starting point or a member, and no element examined is strictly above
it. -/
theorem foldl_max_props : ∀ (l : List String) (a : String),
    (l.foldl (fun m t => if strLtB m t then t else m) a = a
       ∨ l.foldl (fun m t => if strLtB m t then t else m) a ∈ l)
    ∧ strLtB (l.foldl (fun m t => if strLtB m t then t else m) a) a = false
    ∧ (∀ s ∈ l, strLtB (l.foldl (fun m t => if strLtB m t then t else m) a) s = false)
  | [], a => ⟨Or.inl rfl, strLtB_irrefl a, by simp⟩
  | t :: l, a => by
    rw [List.foldl_cons]
    by_cases hat : strLtB a t = true
    · rw [if_pos hat]
      obtain ⟨hmem, hnl, hall⟩ := foldl_max_props l t
      refine ⟨?_, ?_, ?_⟩
      · rcases hmem with h | h
        · rw [h]
          exact Or.inr (List.mem_cons_self t l)
        · exact Or.inr (List.mem_cons_of_mem t h)
      · by_contra hcon
        rw [Bool.not_eq_false] at hcon
        have h2 := strLtB_trans hcon hat
        rw [h2] at hnl
        exact absurd hnl (by simp)
      · intro s hs
        rcases List.mem_cons.mp hs with rfl | hsl
        · exact hnl
        · exact hall s hsl
    · rw [if_neg hat]
      rw [Bool.not_eq_true] at hat
      obtain ⟨hmem, hnl, hall⟩ := foldl_max_props l a
      refine ⟨?_, ?_, ?_⟩
      · rcases hmem with h | h
        · exact Or.inl h
        · exact Or.inr (List.mem_cons_of_mem t h)
      · exact hnl
      · intro s hs
        rcases List.mem_cons.mp hs with rfl | hsl
        · by_contra hcon
          rw [Bool.not_eq_false] at hcon
          by_cases hta : strLtB s a = true
          · have h2 := strLtB_trans hcon hta
            rw [h2] at hnl
            exact absurd hnl (by simp)
          · rw [Bool.not_eq_true] at hta
            have hsa : s = a := strLtB_eq_of_not_lt hta hat
            rw [hsa] at hcon
            rw [hcon] at hnl
            exact absurd hnl (by simp)
        · exact hall s hsl

/-- What the sorted `findOne` returns: a member no other member exceeds. -/
theorem maxStr?_spec {l : List String} {m : String} (h : maxStr? l = some m) :
    m ∈ l ∧ ∀ s ∈ l, strLtB m s = false := by
  cases l with
  | nil => simp [maxStr?] at h
  | cons s rest =>
    simp only [maxStr?, Option.some.injEq] at h
    obtain ⟨hmem, hns, hall⟩ := foldl_max_props rest s
    subst h
    constructor
    · rcases hmem with h | h
      · rw [h]
        exact List.mem_cons_self s rest
      · exact List.mem_cons_of_mem s h
    · intro x hx
      rcases List.mem_cons.mp hx with rfl | hx
      · exact hns
      · exact hall x hx

theorem maxStr?_of_ne_nil {l : List String} (h : l ≠ []) :
    ∃ m, maxStr? l = some m := by
  cases l with
  | nil => exact absurd rfl h
  | cons s rest => exact ⟨_, rfl⟩

end SmartShop

namespace SmartShop

theorem strStartsWith_append (p x : String) : strStartsWith (p ++ x) p = true := by
  unfold strStartsWith
  rw [String.data_append, List.isPrefixOf_iff_prefix]
  exact List.prefix_append p.data x.data

theorem dropPfx_append (p x : String) : dropPfx p (p ++ x) = x := by
  unfold dropPfx
  rw [String.data_append, List.drop_left]

theorem string_append_cancel {p a b : String} (h : p ++ a = p ++ b) : a = b := by
  have h2 := congrArg String.data h
  rw [String.data_append, String.data_append] at h2
  exact string_ext (List.append_cancel_left h2)

theorem strLtB_append_left (p a b : String) :
    strLtB (p ++ a) (p ++ b) = strLtB a b := by
  unfold strLtB
  rw [String.data_append, String.data_append]
  exact listStrLtB_append_left p.data a.data b.data

/-- Modelled from the claim's words, for comparison with the source's
generator: "the zero-padded-to-6-digits successor of the numeric suffix of
the highest existing invoice number with that prefix, or sequence 1 when no
invoice exists for the year" — with "highest" read numerically. -/
def specInvoiceNext (year : ℕ) (existing : List String) : String :=
  let p := invPfx year
  let suffixVals := (existing.filter fun s => strStartsWith s p).filterMap
    fun s => jsParseIntNat (dropPfx p s)
  match suffixVals.maximum? with
  | none => p ++ padStart6 (natToString 1)
  | some m => p ++ padStart6 (natToString (m + 1))

/-- C5 (amended) — over a collection whose invoice numbers for the year all
carry 6-digit zero-padded suffixes (fewer than 10^6 invoices in the year),
`generateInvoiceNumber` returns the prefix plus the zero-padded successor of
the numerically greatest existing suffix (which is then also the
lexicographically greatest, the order the MongoDB sort uses), starting at
000001 when the year has no invoice; the result is fresh, so sequential
creation within those bounds yields strictly increasing, duplicate-free
suffixes.  Beyond 999999 the lexicographic sort no longer agrees with
numeric order and the guarantee breaks (see the counterexample). -/
theorem C5_generateInvoiceNumber_correct_upto_999999 (year : ℕ)
    (existing : List String)
    (hwf : ∀ s ∈ existing, strStartsWith s (invPfx year) = true →
        ∃ k, k < 1000000 ∧ s = invPfx year ++ pad6Nat k) :
    ((∀ s ∈ existing, strStartsWith s (invPfx year) = false) →
        generateInvoiceNumber year existing = invPfx year ++ pad6Nat 1)
    ∧ (∀ s₀ ∈ existing, strStartsWith s₀ (invPfx year) = true →
        ∃ M, M < 1000000
          ∧ (invPfx year ++ pad6Nat M) ∈ existing
          ∧ (∀ k, (invPfx year ++ pad6Nat k) ∈ existing → k ≤ M)
          ∧ generateInvoiceNumber year existing = invPfx year ++ pad6Nat (M + 1)
          ∧ generateInvoiceNumber year existing ∉ existing) := by
  constructor
  · intro hnone
    unfold generateInvoiceNumber
    have hfilter : existing.filter (fun s => strStartsWith s (invPfx year)) = [] := by
      apply List.filter_eq_nil_iff.mpr
      intro s hs
      rw [hnone s hs]
      simp
    simp only
    rw [hfilter]
    rfl
  · intro s₀ hs₀ hstart
    have hmem₀ : s₀ ∈ existing.filter (fun s => strStartsWith s (invPfx year)) :=
      List.mem_filter.mpr ⟨hs₀, hstart⟩
    obtain ⟨m, hm⟩ := maxStr?_of_ne_nil (List.ne_nil_of_mem hmem₀)
    obtain ⟨hmF, hmax⟩ := maxStr?_spec hm
    obtain ⟨hmEx, hmStart⟩ := List.mem_filter.mp hmF
    obtain ⟨M, hM6, hMeq⟩ := hwf m hmEx hmStart
    have hbound : ∀ k, (invPfx year ++ pad6Nat k) ∈ existing → k ≤ M := by
      intro k hk
      have hkStart : strStartsWith (invPfx year ++ pad6Nat k) (invPfx year) = true :=
        strStartsWith_append _ _
      obtain ⟨k', hk'6, hk'eq⟩ := hwf _ hk hkStart
      have hkk' : k = k' := pad6Nat_inj (string_append_cancel hk'eq)
      subst hkk'
      have hkF : (invPfx year ++ pad6Nat k) ∈
          existing.filter (fun s => strStartsWith s (invPfx year)) :=
        List.mem_filter.mpr ⟨hk, hkStart⟩
      have hnlt := hmax _ hkF
      rw [hMeq, strLtB_append_left] at hnlt
      unfold strLtB at hnlt
      have hiff := listStrLtB_digits_iff (pad6Nat M).data (pad6Nat k).data
        (pad6Nat_all_digits M) (pad6Nat_all_digits k)
        (by rw [pad6Nat_length hM6, pad6Nat_length hk'6])
      rw [valDigits_pad6Nat, valDigits_pad6Nat] at hiff
      by_contra hcon
      push_neg at hcon
      have := hiff.mpr hcon
      rw [this] at hnlt
      exact absurd hnlt (by simp)
    have hgen : generateInvoiceNumber year existing
        = invPfx year ++ pad6Nat (M + 1) := by
      unfold generateInvoiceNumber
      simp only
      rw [hm]
      simp only
      rw [hMeq, dropPfx_append, jsParseIntNat_pad6Nat]
      rfl
    refine ⟨M, hM6, ?_, hbound, hgen, ?_⟩
    · rw [← hMeq]
      exact hmEx
    · intro hcon
      have hstart' : strStartsWith (generateInvoiceNumber year existing)
          (invPfx year) = true := by
        rw [hgen]
        exact strStartsWith_append _ _
      obtain ⟨k, hk6, hkeq⟩ := hwf _ hcon hstart'
      have hMk : M + 1 = k :=
        pad6Nat_inj (string_append_cancel (hgen.symm.trans hkeq))
      have hkM : k ≤ M := by
        apply hbound
        rw [← hkeq]
        exact hcon
      omega

end SmartShop

namespace SmartShop

/-- C5 counterexample — with invoices `INV-2025-999999` and
`INV-2025-1000000` on file, the MongoDB string sort ranks `…-999999` above
`…-1000000` (`'9' > '1'` at the first differing byte), so the source
generator parses 999999, adds one, and returns `INV-2025-1000000` — a
string already in the collection — while the claim's numerically-highest
reading demands `INV-2025-1000001`.  The suffixes are therefore neither
"the successor of the highest" nor duplicate-free once 999999 is
crossed. -/
theorem C5_lexicographic_rollover_counterexample :
    generateInvoiceNumber 2025 ["INV-2025-999999", "INV-2025-1000000"]
        = "INV-2025-1000000"
    ∧ "INV-2025-1000000" ∈ ["INV-2025-999999", "INV-2025-1000000"]
    ∧ specInvoiceNext 2025 ["INV-2025-999999", "INV-2025-1000000"]
        = "INV-2025-1000001"
    ∧ generateInvoiceNumber 2025 ["INV-2025-999999", "INV-2025-1000000"]
        ≠ specInvoiceNext 2025 ["INV-2025-999999", "INV-2025-1000000"] :=
  ⟨by decide, by decide, by decide, by decide⟩

/-- Witness for C5 at a well-formed collection: suffixes 000001 and 000007
on file (plus an unrelated string); the generator returns the fresh
`INV-2025-000008`. -/
theorem C5_generateInvoiceNumber_correct_upto_999999_witness :
    generateInvoiceNumber 2025 ["INV-2025-000001", "INV-2025-000007", "OTHERX"]
        = "INV-2025-000008"
    ∧ "INV-2025-000008" ∉ ["INV-2025-000001", "INV-2025-000007", "OTHERX"] := by
  have hwf : ∀ s ∈ ["INV-2025-000001", "INV-2025-000007", "OTHERX"],
      strStartsWith s (invPfx 2025) = true →
      ∃ k, k < 1000000 ∧ s = invPfx 2025 ++ pad6Nat k := by
    intro s hs hstart
    simp only [List.mem_cons, List.not_mem_nil, or_false] at hs
    rcases hs with rfl | rfl | rfl
    · exact ⟨1, by norm_num, by decide⟩
    · exact ⟨7, by norm_num, by decide⟩
    · exact absurd hstart (by decide)
  obtain ⟨-, h2⟩ :=
    C5_generateInvoiceNumber_correct_upto_999999 2025
      ["INV-2025-000001", "INV-2025-000007", "OTHERX"] hwf
  obtain ⟨M, hM6, hmem, hbound, hgen, hnot⟩ :=
    h2 "INV-2025-000001" (by decide) (by decide)
  have h7 : 7 ≤ M := hbound 7 (by decide)
  have hMle : M ≤ 7 := by
    simp only [List.mem_cons, List.not_mem_nil, or_false] at hmem
    rcases hmem with hc | hc | hc
    · have he : invPfx 2025 ++ pad6Nat M = invPfx 2025 ++ pad6Nat 1 :=
        hc.trans (by decide)
      have : M = 1 := pad6Nat_inj (string_append_cancel he)
      omega
    · have he : invPfx 2025 ++ pad6Nat M = invPfx 2025 ++ pad6Nat 7 :=
        hc.trans (by decide)
      have : M = 7 := pad6Nat_inj (string_append_cancel he)
      omega
    · have hst := strStartsWith_append (invPfx 2025) (pad6Nat M)
      rw [hc] at hst
      exact absurd hst (by decide)
  have hM7 : M = 7 := le_antisymm hMle h7
  subst hM7
  constructor
  · rw [hgen]
    decide
  · decide

end SmartShop
